import Mathlib

/-!
# Job-postings feed parser: normalisation and approval core

A shallow embedding of the Go packages `models`, `ingestion` and `approval`
and machine-checked statements about them.

Conventions of the embedding.

* A Go `string` is a Lean `String`, read as its list of Unicode code points
  (`String.data`).  Go strings that are not valid UTF-8 are outside the model;
  strings decoded by `encoding/json` are always valid.
* A Go `float64` is the type `F64` below: an IEEE 754 binary64 value kept as
  sign, integer mantissa and binary exponent, with round-to-nearest-even done
  in integer arithmetic.
* A Go `interface{}` is the type `models.Any`: the shapes `encoding/json`
  produces, the Go `int` that direct callers can pass, and a catch-all.
* `time.Now()`, `time.Parse` and `strconv.ParseFloat` belong to the standard
  library; they enter the definitions as explicit arguments.
-/

set_option autoImplicit false
set_option maxRecDepth 4000

/-! ## Go `strings` and `unicode` -/

namespace unicode

/-- Go `unicode.IsSpace`: the Latin-1 spaces `\t \n \v \f \r`, space, U+0085, U+00A0
and the other code points with the White_Space property. -/
def IsSpace (c : Char) : Bool :=
  let n := c.toNat
  (0x09 ≤ n && n ≤ 0x0D) || n == 0x20 || n == 0x85 || n == 0xA0 || n == 0x1680 ||
    (0x2000 ≤ n && n ≤ 0x200A) || n == 0x2028 || n == 0x2029 || n == 0x202F ||
    n == 0x205F || n == 0x3000

/-- Go `unicode.ToUpper` on ASCII and Latin-1, together with the two code points
outside Latin-1 whose upper case is an ASCII letter (U+0131, U+017F).  Every other
code point is returned unchanged: no comparison made by the program (all are
against ASCII or Latin-1 constants) can tell the difference. -/
def ToUpper (c : Char) : Char :=
  let n := c.toNat
  if 0x61 ≤ n ∧ n ≤ 0x7A then Char.ofNat (n - 32)
  else if 0xE0 ≤ n ∧ n ≤ 0xFE ∧ n ≠ 0xF7 then Char.ofNat (n - 32)
  else if n = 0xFF then Char.ofNat 0x178
  else if n = 0xB5 then Char.ofNat 0x39C
  else if n = 0x131 then Char.ofNat 0x49
  else if n = 0x17F then Char.ofNat 0x53
  else c

/-- Go `unicode.ToLower` on ASCII and Latin-1, together with the code points
outside Latin-1 whose lower case is an ASCII or Latin-1 letter (U+0130, U+0178,
U+1E9E, U+212A, U+212B).  Every other code point is returned unchanged, as for
`ToUpper`. -/
def ToLower (c : Char) : Char :=
  let n := c.toNat
  if 0x41 ≤ n ∧ n ≤ 0x5A then Char.ofNat (n + 32)
  else if 0xC0 ≤ n ∧ n ≤ 0xDE ∧ n ≠ 0xD7 then Char.ofNat (n + 32)
  else if n = 0x130 then Char.ofNat 0x69
  else if n = 0x178 then Char.ofNat 0xFF
  else if n = 0x1E9E then Char.ofNat 0xDF
  else if n = 0x212A then Char.ofNat 0x6B
  else if n = 0x212B then Char.ofNat 0xE5
  else c

end unicode

namespace strings

/-- Go `strings.TrimSpace`: drop the leading and the trailing white space. -/
def TrimSpace (s : String) : String :=
  ⟨((s.data.dropWhile unicode.IsSpace).reverse.dropWhile unicode.IsSpace).reverse⟩

/-- Go `strings.ToUpper`: every code point mapped to its upper case. -/
def ToUpper (s : String) : String := ⟨s.data.map unicode.ToUpper⟩

/-- Go `strings.ToLower`: every code point mapped to its lower case. -/
def ToLower (s : String) : String := ⟨s.data.map unicode.ToLower⟩

/-- Substring test on code-point lists. -/
def containsList (sub : List Char) : List Char → Bool
  | [] => sub.isEmpty
  | c :: t => sub.isPrefixOf (c :: t) || containsList sub t

/-- Go `strings.Contains s substr`. -/
def Contains (s substr : String) : Bool := containsList substr.data s.data

/-- Go `strings.Split s sep` for a one-character separator: the pieces of `s`
between the occurrences of `sep`; always at least one piece. -/
def Split (s : String) (sep : Char) : List String := (s.data.splitOn sep).map String.mk

/-- Go `strings.Join elems sep`. -/
def Join (elems : List String) (sep : String) : String :=
  ⟨sep.data.intercalate (elems.map String.data)⟩

end strings

/-! ## Go `float64` -/

/-- Number of binary digits of `n`, with `fuel` bounding the recursion. -/
def bitLenAux : Nat → Nat → Nat
  | 0, _ => 0
  | fuel + 1, n => if n = 0 then 0 else bitLenAux fuel (n / 2) + 1

/-- Number of binary digits of `n` (`0` for `0`). -/
def bitLen (n : Nat) : Nat := bitLenAux n n

/-- An IEEE 754 binary64 value.  `fin neg m e` is `(-1)^neg * m * 2^e`; the values
built by `F64.round` are canonical: `m < 2^53`, `-1074 ≤ e ≤ 971`, and `2^52 ≤ m`
unless `e = -1074`. -/
inductive F64 where
  | nan
  | inf (neg : Bool)
  | fin (neg : Bool) (m : Nat) (e : Int)
  deriving DecidableEq, Repr

namespace F64

/-- Round `(-1)^neg * m * 2^e` to the nearest binary64 value, ties to even;
overflow gives an infinity. -/
def round (neg : Bool) (m : Nat) (e : Int) : F64 :=
  if m = 0 then fin neg 0 (-1074)
  else
    let e1 : Int := max (e + (bitLen m : Int) - 53) (-1074)
    let q : Nat :=
      if e1 ≤ e then m * 2 ^ (e - e1).toNat
      else
        let sh := (e1 - e).toNat
        let q0 := m / 2 ^ sh
        let r := m % 2 ^ sh
        let half := 2 ^ (sh - 1)
        if half < r ∨ (r = half ∧ q0 % 2 = 1) then q0 + 1 else q0
    let q2 : Nat := if q = 2 ^ 53 then 2 ^ 52 else q
    let e2 : Int := if q = 2 ^ 53 then e1 + 1 else e1
    if 971 < e2 then inf neg else fin neg q2 e2

/-- Go conversion `float64(n)` of an integer. -/
def ofInt (n : Int) : F64 := round (decide (n < 0)) n.natAbs 0

/-- The binary64 value nearest to `p / q` (for `q ≠ 0`): the value of a Go
floating-point constant such as `0.74 = 74/100`. -/
def ofRat (p q : Nat) : F64 :=
  let k := bitLen q + 64
  let n := p * 2 ^ k
  round false (2 * (n / q) + (if n % q = 0 then 0 else 1)) (-((k : Int) + 1))

/-- The mantissa with its sign. -/
def signed (neg : Bool) (m : Nat) : Int := if neg then -(m : Int) else (m : Int)

/-- Go `a <= b` on `float64`: false when either side is NaN.  A zero is compared by
sign alone (both zeros are equal); two non-zero finite values are brought to a
common exponent. -/
def le : F64 → F64 → Bool
  | nan, _ => false
  | _, nan => false
  | inf true, _ => true
  | _, inf false => true
  | inf false, _ => false
  | _, inf true => false
  | fin n1 m1 e1, fin n2 m2 e2 =>
    if m1 = 0 then (decide (m2 = 0) || !n2)
    else if m2 = 0 then n1
    else
      let e := min e1 e2
      decide (signed n1 (m1 * 2 ^ (e1 - e).toNat) ≤ signed n2 (m2 * 2 ^ (e2 - e).toNat))

/-- Go `a >= b` on `float64`. -/
def ge (a b : F64) : Bool := le b a

/-- Go `a * b` on `float64`. -/
def mul : F64 → F64 → F64
  | nan, _ => nan
  | _, nan => nan
  | inf n1, inf n2 => inf (n1 != n2)
  | inf n1, fin n2 m2 _ => if m2 = 0 then nan else inf (n1 != n2)
  | fin n1 m1 _, inf n2 => if m1 = 0 then nan else inf (n1 != n2)
  | fin n1 m1 e1, fin n2 m2 e2 => round (n1 != n2) (m1 * m2) (e1 + e2)

/-- The exact integer value of a binary64 value, when it has one. -/
def toInt? : F64 → Option Int
  | fin neg m e => if 0 ≤ e then some (signed neg (m * 2 ^ e.toNat))
      else if m % 2 ^ (-e).toNat = 0 then some (signed neg (m / 2 ^ (-e).toNat)) else none
  | _ => none

end F64

/-! ## Package `models` -/

/-- Go `time.Time`, kept as the instant in Unix seconds. -/
abbrev Time := Int

namespace models

/-- Go `interface{}` as the program meets it: the values `encoding/json` decodes
into (`nil`, `bool`, `float64`, `string`, `[]interface{}`, `map[string]interface{}`),
the Go `int` a direct caller can pass, and `other` for any further dynamic type.
A map is kept as an association list read with `List.lookup`. -/
inductive Any where
  | null
  | bool (b : Bool)
  | float (f : F64)
  | int (n : Int)
  | str (s : String)
  | arr (items : List Any)
  | obj (fields : List (String × Any))
  | other (typeName : String)

/-- Go `models.Location`. -/
structure Location where
  City : String
  State : String
  Country : String
  deriving DecidableEq, Repr

/-- Go `models.Salary`; `Value` is an `interface{}`. -/
structure Salary where
  Value : Any
  Currency : String
  Unit : String

/-- Go `models.RawJobPosting`: a decoded feed record. -/
structure RawJobPosting where
  Title : String
  Description : String
  Company : String
  Location : Any
  Salary : Any
  EmploymentType : String
  PostingDate : String
  CompanyType : String
  Language : String
  Remote : Bool

/-- Go `models.JobPosting`: the normalised posting. -/
structure JobPosting where
  ID : String
  Title : String
  Description : String
  Company : String
  Location : models.Location
  Salary : models.Salary
  EmploymentType : String
  PostingDate : Time
  CompanyType : String
  Language : String
  Remote : Bool

/-- Go `models.ApprovalResult`. -/
structure ApprovalResult where
  JobID : String
  Approved : Bool
  Reasons : List String
  ProcessedAt : Time
  deriving DecidableEq, Repr

end models

/-! ## Package `approval` -/

namespace approval

open models

/-- Go `approval.ApprovalCriteria`. -/
structure ApprovalCriteria where
  MinAnnualSalaryUSD : F64
  MinHourlySalaryUSD : F64
  deriving DecidableEq, Repr

/-- Go `approval.JobApprover`. -/
structure JobApprover where
  criteria : ApprovalCriteria
  deriving DecidableEq, Repr

/-- Go `NewJobApprover`: thresholds 100000 (annual) and 45 (hourly). -/
def NewJobApprover : JobApprover :=
  { criteria := { MinAnnualSalaryUSD := F64.ofInt 100000, MinHourlySalaryUSD := F64.ofInt 45 } }

/-- Go `isValidLocation`. -/
def isValidLocation (job : JobPosting) : Bool :=
  if job.Remote then true
  else
    let country := strings.ToUpper (strings.TrimSpace job.Location.Country)
    country == "USA" || country == "US" || country == "UNITED STATES" ||
      country == "CANADA" || country == "CA"

/-- Go `isFullTime`. -/
def isFullTime (job : JobPosting) : Bool :=
  let empType := strings.ToLower (strings.TrimSpace job.EmploymentType)
  empType == "full-time" || empType == "fulltime" || empType == "full time"

/-- Go `ExtractSalaryValue`; `parseFloat s` is `strconv.ParseFloat(s, 64)`, with `none`
for a non-nil error. -/
def ExtractSalaryValue (parseFloat : String → Option F64) (value : Any) : F64 :=
  match value with
  | .float v => v
  | .int v => F64.ofInt v
  | .str v =>
    match parseFloat v with
    | some parsed => parsed
    | none => F64.ofInt 0
  | _ => F64.ofInt 0

/-- Go `convertToUSD`. -/
def convertToUSD (amount : F64) (currency : String) : F64 :=
  let currency := strings.ToUpper (strings.TrimSpace currency)
  if currency = "USD" then amount
  else if currency = "CAD" then F64.mul amount (F64.ofRat 74 100)
  else if currency = "EUR" then F64.mul amount (F64.ofRat 109 100)
  else if currency = "GBP" then F64.mul amount (F64.ofRat 127 100)
  else amount

/-- Go `meetsSalaryRequirement`. -/
def meetsSalaryRequirement (parseFloat : String → Option F64) (ja : JobApprover)
    (job : JobPosting) : Bool :=
  let salaryValue := ExtractSalaryValue parseFloat job.Salary.Value
  if F64.le salaryValue (F64.ofInt 0) then false
  else
    let salaryUSD := convertToUSD salaryValue job.Salary.Currency
    if job.Salary.Unit = "hourly" then F64.ge salaryUSD ja.criteria.MinHourlySalaryUSD
    else F64.ge salaryUSD ja.criteria.MinAnnualSalaryUSD

/-- Go `isStaffingFirm`. -/
def isStaffingFirm (job : JobPosting) : Bool :=
  let companyType := strings.ToLower (strings.TrimSpace job.CompanyType)
  strings.Contains companyType "staffing" || strings.Contains companyType "recruiting"

/-- Go `hasValidLanguage`. -/
def hasValidLanguage (job : JobPosting) : Bool :=
  let language := strings.ToLower (strings.TrimSpace job.Language)
  if language = "" then false
  else if language = "english" then true
  else if language = "french" ∨ language = "français" then
    let country := strings.ToUpper (strings.TrimSpace job.Location.Country)
    country == "CANADA" || country == "CA"
  else false

/-- Reason appended when `isValidLocation` fails. -/
def reasonLocation : String := "Invalid location: must be remote or in US/Canada"

/-- Reason appended when `isFullTime` fails. -/
def reasonEmployment : String := "Invalid employment type: must be full-time"

/-- Reason appended when `meetsSalaryRequirement` fails. -/
def reasonSalary : String := "Insufficient salary: must be >$100k annual or >$45/hour"

/-- Reason appended when `isStaffingFirm` holds. -/
def reasonCompany : String := "Invalid company type: staffing firms not allowed"

/-- Reason appended when `hasValidLanguage` fails. -/
def reasonLanguage : String := "Invalid language: must be English or French (for Canada jobs)"

/-- One guarded block of `ApproveJob`: `result.Approved = false` and the reason appended. -/
def reject (result : ApprovalResult) (reason : String) : ApprovalResult :=
  { result with Approved := false, Reasons := result.Reasons ++ [reason] }

/-- Go `ApproveJob`; `now` is the reading of `time.Now()`. -/
def ApproveJob (parseFloat : String → Option F64) (now : Time) (ja : JobApprover)
    (job : JobPosting) : ApprovalResult :=
  let result : ApprovalResult :=
    { JobID := job.ID, Approved := true, Reasons := [], ProcessedAt := now }
  let result := if !isValidLocation job then reject result reasonLocation else result
  let result := if !isFullTime job then reject result reasonEmployment else result
  let result :=
    if !meetsSalaryRequirement parseFloat ja job then reject result reasonSalary else result
  let result := if isStaffingFirm job then reject result reasonCompany else result
  let result := if !hasValidLanguage job then reject result reasonLanguage else result
  result

end approval

/-! ## Go `fmt` -/

namespace fmt

/-- Decimal digits of `n`, most significant first, with `fuel` bounding the recursion. -/
def natDigits : Nat → Nat → List Char
  | 0, _ => []
  | fuel + 1, n =>
    if n < 10 then [Char.ofNat (48 + n)]
    else natDigits fuel (n / 10) ++ [Char.ofNat (48 + n % 10)]

/-- The verb `%d` on a non-negative integer. -/
def formatNat (n : Nat) : String := ⟨natDigits (n + 1) n⟩

/-- The verb `%d` of Go `fmt.Sprintf` on an integer. -/
def formatInt (n : Int) : String :=
  if n < 0 then "-" ++ formatNat n.natAbs else formatNat n.natAbs

end fmt

/-! ## Package `ingestion` -/

namespace ingestion

open models

/-- The errors of the package: the two `fmt.Errorf("unsupported ... format: %T", data)`
values, their wrappers made by `normalizeJob`, and the failure of `json.Unmarshal`. -/
inductive Error where
  | unsupportedLocationFormat (data : Any)
  | unsupportedSalaryFormat (data : Any)
  | failedToNormalizeLocation (cause : Error)
  | failedToNormalizeSalary (cause : Error)
  | failedToUnmarshal

/-- Go `parseLocationString`.  The indices are read with a default that is never
used: `strings.Split` returns at least one piece. -/
def parseLocationString (locationStr : String) : Location :=
  let parts := (strings.Split locationStr ',').map strings.TrimSpace
  let location : Location := { City := "", State := "", Country := "" }
  match parts.length with
  | 3 => { location with
      City := parts.getD 0 "", State := parts.getD 1 "", Country := parts.getD 2 "" }
  | 2 => { location with City := parts.getD 0 "", Country := parts.getD 1 "" }
  | 1 => { location with City := parts.getD 0 "" }
  | _ => { location with
      City := parts.getD 0 "", Country := parts.getD (parts.length - 1) "" }

/-- Go `normalizeLocation`. -/
def normalizeLocation (locationData : Any) : Except Error Location :=
  match locationData with
  | .obj loc =>
    let location : Location := { City := "", State := "", Country := "" }
    let location :=
      match loc.lookup "city" with
      | some (.str city) => { location with City := city }
      | _ => location
    let location :=
      match loc.lookup "state" with
      | some (.str state) => { location with State := state }
      | _ => location
    let location :=
      match loc.lookup "country" with
      | some (.str country) => { location with Country := country }
      | _ => location
    .ok location
  | .str loc => .ok (parseLocationString loc)
  | _ => .error (.unsupportedLocationFormat locationData)

/-- Go `normalizeSalary`. -/
def normalizeSalary (salaryData : Any) : Except Error Salary :=
  match salaryData with
  | .obj sal =>
    let salary : Salary := { Value := .null, Currency := "", Unit := "" }
    let salary :=
      match sal.lookup "value" with
      | some value => { salary with Value := value }
      | none => salary
    let salary :=
      match sal.lookup "currency" with
      | some (.str currency) => { salary with Currency := currency }
      | _ => salary
    let salary :=
      match sal.lookup "unit" with
      | some (.str unit) => { salary with Unit := unit }
      | _ => salary
    .ok salary
  | .float sal => .ok { Value := .float sal, Currency := "USD", Unit := "" }
  | .int sal => .ok { Value := .float (F64.ofInt sal), Currency := "USD", Unit := "" }
  | _ => .error (.unsupportedSalaryFormat salaryData)

/-- The zero `time.Time` (January 1, year 1, 00:00 UTC) in Unix seconds. -/
def zeroTime : Time := -62135596800

/-- Go `normalizeJob`; `parseDate s` is `time.Parse("2006-01-02", s)`, with `none` for an
error, and `now` is the reading of `time.Now()`. -/
def normalizeJob (parseDate : String → Option Time) (now : Time) (raw : RawJobPosting)
    (id : String) : Except Error JobPosting :=
  let job : JobPosting :=
    { ID := id, Title := raw.Title, Description := raw.Description, Company := raw.Company,
      Location := { City := "", State := "", Country := "" },
      Salary := { Value := .null, Currency := "", Unit := "" },
      EmploymentType := raw.EmploymentType, PostingDate := zeroTime,
      CompanyType := raw.CompanyType, Language := raw.Language, Remote := raw.Remote }
  let job :=
    if raw.PostingDate ≠ "" then
      match parseDate raw.PostingDate with
      | some parsedDate => { job with PostingDate := parsedDate }
      | none => { job with PostingDate := now }
    else { job with PostingDate := now }
  match normalizeLocation raw.Location with
  | .error err => .error (.failedToNormalizeLocation err)
  | .ok location =>
    let job := { job with Location := location }
    match normalizeSalary raw.Salary with
    | .error err => .error (.failedToNormalizeSalary err)
    | .ok salary => .ok { job with Salary := salary }

/-- The readings of `time.Now()` during a batch: `idNow i` is the one taken for the id of
record `i`, `dateNow i` the one `normalizeJob` takes for record `i`. -/
structure Clock where
  idNow : Nat → Time
  dateNow : Nat → Time

/-- The id of record `i`: `fmt.Sprintf("job_%d_%d", time.Now().Unix(), i)`. -/
def jobID (now : Time) (i : Nat) : String :=
  "job_" ++ fmt.formatInt now ++ "_" ++ fmt.formatInt i

/-- What a batch leaves behind: the postings returned and the warnings written with
`log.Printf`, each with the index of the record and its error. -/
structure IngestOutcome where
  jobs : List JobPosting
  warnings : List (Nat × Error)

/-- The loop of `IngestFromJSON` from record `i` on: `rawJobs` are the records still
to visit, `acc` what the earlier iterations produced. -/
def ingestLoop (parseDate : String → Option Time) (clock : Clock) :
    List RawJobPosting → Nat → IngestOutcome → IngestOutcome
  | [], _, acc => acc
  | rawJob :: rest, i, acc =>
    match normalizeJob parseDate (clock.dateNow i) rawJob (jobID (clock.idNow i) i) with
    | .error err =>
      ingestLoop parseDate clock rest (i + 1) { acc with warnings := acc.warnings ++ [(i, err)] }
    | .ok job =>
      ingestLoop parseDate clock rest (i + 1) { acc with jobs := acc.jobs ++ [job] }

/-- Go `IngestFromJSON`; `unmarshal` is `json.Unmarshal` into `[]models.RawJobPosting`,
with `none` for an error. -/
def IngestFromJSON (unmarshal : List UInt8 → Option (List RawJobPosting))
    (parseDate : String → Option Time) (clock : Clock) (jsonData : List UInt8) :
    Except Error IngestOutcome :=
  match unmarshal jsonData with
  | none => .error .failedToUnmarshal
  | some rawJobs => .ok (ingestLoop parseDate clock rawJobs 0 { jobs := [], warnings := [] })

end ingestion

/-! ## The specification's words as definitions, and sample records -/

namespace models

/-- The value is a structured object (a `map[string]interface{}`). -/
def Any.isObject : Any → Bool
  | .obj _ => true
  | _ => false

/-- The value is a string. -/
def Any.isString : Any → Bool
  | .str _ => true
  | _ => false

/-- The value is a bare number: a Go `float64` or a Go `int`, the two numeric cases
of the type switch. -/
def Any.isNumber : Any → Bool
  | .float _ => true
  | .int _ => true
  | _ => false

/-- The value `v` is the number `n`: a Go `int` equal to `n`, or a `float64` whose exact
value is `n`. -/
def Any.isInteger (v : Any) (n : Int) : Prop :=
  match v with
  | .int k => k = n
  | .float f => f.toInt? = some n
  | _ => False

end models

namespace approval

open models

/-- The reasons the specification asks for: the five checks in the fixed order
location, employment type, salary, company type, language, each with its fixed text;
the texts of the checks that do not pass are listed. -/
def specReasons (location employment salary company language : Bool) : List String :=
  ([(location, reasonLocation), (employment, reasonEmployment), (salary, reasonSalary),
    (company, reasonCompany), (language, reasonLanguage)].filter (fun p => !p.1)).map Prod.snd

/-- The countries the location rule of the specification accepts. -/
def specCountries : List String := ["USA", "US", "UNITED STATES", "CANADA", "CA"]

/-- The language rule read to the letter: the language compared without regard to case
only, the country trimmed and upper-cased. -/
def claimedLanguageRule (job : JobPosting) : Prop :=
  strings.ToLower job.Language = "english" ∨
    ((strings.ToLower job.Language = "french" ∨ strings.ToLower job.Language = "français") ∧
      (strings.ToUpper (strings.TrimSpace job.Location.Country) = "CANADA" ∨
        strings.ToUpper (strings.TrimSpace job.Location.Country) = "CA"))

instance (job : JobPosting) : Decidable (claimedLanguageRule job) := by
  unfold claimedLanguageRule; infer_instance

/-- The language rule with the language trimmed before it is lower-cased. -/
def specLanguageRule (job : JobPosting) : Prop :=
  strings.ToLower (strings.TrimSpace job.Language) = "english" ∨
    ((strings.ToLower (strings.TrimSpace job.Language) = "french" ∨
        strings.ToLower (strings.TrimSpace job.Language) = "français") ∧
      (strings.ToUpper (strings.TrimSpace job.Location.Country) = "CANADA" ∨
        strings.ToUpper (strings.TrimSpace job.Location.Country) = "CA"))

/-- A posting in the UK, in English, with a sufficient salary in GBP. -/
def sampleJob : JobPosting :=
  { ID := "job_1700000000_0", Title := "Engineer", Description := "", Company := "Acme",
    Location := { City := "London", State := "", Country := "UK" },
    Salary := { Value := .float (F64.ofInt 150000), Currency := "GBP", Unit := "" },
    EmploymentType := "full-time", PostingDate := 1700000000, CompanyType := "Agency",
    Language := "English", Remote := false }

end approval

namespace ingestion

open models

/-- The shapes `normalizeJob` cannot read: a location that is neither an object nor a
string, or a salary that is neither an object nor a bare number. -/
def specUnsupported (raw : RawJobPosting) : Prop :=
  ¬ (raw.Location.isObject = true ∨ raw.Location.isString = true) ∨
    ¬ (raw.Salary.isObject = true ∨ raw.Salary.isNumber = true)

/-- The posting date `normalizeJob` settles on. -/
def resolvedPostingDate (parseDate : String → Option Time) (now : Time)
    (raw : RawJobPosting) : Time :=
  if raw.PostingDate ≠ "" then (parseDate raw.PostingDate).getD now else now

/-- The posting the batch makes of the record `p.2` at position `p.1`, if it normalises. -/
def ingestRecord (parseDate : String → Option Time) (clock : Clock)
    (p : Nat × RawJobPosting) : Option JobPosting :=
  (normalizeJob parseDate (clock.dateNow p.1) p.2 (jobID (clock.idNow p.1) p.1)).toOption

/-- A segment of a location string: it holds no comma. -/
def commaFree (s : String) : Prop := ',' ∉ s.data

instance (s : String) : Decidable (commaFree s) := by unfold commaFree; infer_instance

/-- The string stored under `key`, or the empty string when the key is absent or its
value is not a string. -/
def stringField (fields : List (String × Any)) (key : String) : String :=
  match fields.lookup key with
  | some (.str s) => s
  | _ => ""

/-- What the specification says of a bare integer `n`: normalisation succeeds with the
salary `{value: n, currency: "USD", unit: ""}`. -/
def specBareIntegerSalary (n : Int) : Prop :=
  ∃ salary, normalizeSalary (.int n) = .ok salary ∧ salary.Value.isInteger n ∧
    salary.Currency = "USD" ∧ salary.Unit = ""

/-- A feed record with the given location and salary. -/
def sampleRaw (location salary : Any) : RawJobPosting :=
  { Title := "Engineer", Description := "", Company := "Acme", Location := location,
    Salary := salary, EmploymentType := "full-time", PostingDate := "2024-01-15",
    CompanyType := "Tech", Language := "English", Remote := false }

/-- A batch of three records; the second has a number for its location. -/
def sampleBatch : List RawJobPosting :=
  [sampleRaw (.str "New York, NY, USA") (.float (F64.ofInt 120000)),
   sampleRaw (.float (F64.ofInt 7)) (.float (F64.ofInt 120000)),
   sampleRaw (.obj [("city", .str "Toronto"), ("country", .str "Canada")]) (.int 130000)]

/-- A clock that always reads 1700000000. -/
def sampleClock : Clock := { idNow := fun _ => 1700000000, dateNow := fun _ => 1700000000 }

/-- The record of the salary test: a location in the UK with the given salary. -/
def ukRaw (salary : Any) : RawJobPosting := sampleRaw (.obj [("country", .str "UK")]) salary

end ingestion

namespace approval

open models

/-- A salary value from which no number can be read: absent, of a non-numeric type, or a
string that `strconv.ParseFloat` rejects. -/
def unreadableValue (parseFloat : String → Option F64) (value : Any) : Prop :=
  match value with
  | .float _ => False
  | .int _ => False
  | .str s => parseFloat s = none
  | _ => True

/-- The conversion read to the letter: the table entry for the currency string as it
stands, the amount unchanged for every other string. -/
def claimedConvertToUSD (amount : F64) (currency : String) : F64 :=
  if currency = "USD" then F64.mul amount (F64.ofInt 1)
  else if currency = "CAD" then F64.mul amount (F64.ofRat 74 100)
  else if currency = "EUR" then F64.mul amount (F64.ofRat 109 100)
  else if currency = "GBP" then F64.mul amount (F64.ofRat 127 100)
  else amount

/-- A remote, full-time, English posting of a technology company with the given salary. -/
def remoteJob (salary : Salary) : JobPosting :=
  { ID := "job_1700000000_1", Title := "Engineer", Description := "", Company := "Acme",
    Location := { City := "", State := "", Country := "" }, Salary := salary,
    EmploymentType := "Full-Time", PostingDate := 1700000000, CompanyType := "Tech",
    Language := "English", Remote := true }

end approval

namespace ingestion

open models

/-- A canonical location fed back as a structured object. -/
def locationObject (location : Location) : Any :=
  .obj [("city", .str location.City), ("state", .str location.State),
    ("country", .str location.Country)]

/-- A canonical salary fed back as a structured object. -/
def salaryObject (salary : Salary) : Any :=
  .obj [("value", salary.Value), ("currency", .str salary.Currency),
    ("unit", .str salary.Unit)]

end ingestion

namespace fmt

/-- The number a list of decimal digits writes, most significant digit first. -/
def digitsValue (digits : List Char) : Nat :=
  digits.foldl (fun acc c => 10 * acc + (c.toNat - 48)) 0

end fmt

namespace ingestion

open models

/-- The salary value a raw input carries: the bare number itself, the entry `value` of
an object (nil when absent), and nil for any other shape. -/
def carriedValue (data : Any) : Any :=
  match data with
  | .obj fields => (fields.lookup "value").getD .null
  | .float f => .float f
  | .int n => .int n
  | _ => .null

end ingestion

namespace approval

open models

/-- The posting `sampleJob` under another id, title, description, company, city, state
and posting date. -/
def sampleJobElsewhere : JobPosting :=
  { sampleJob with
    ID := "job_1700000500_7", Title := "Analyst", Description := "Reports", Company := "Globex",
    Location := { City := "Leeds", State := "West Yorkshire", Country := "UK" },
    PostingDate := 1600000000 }

end approval

/-! ## Facts shared by the proofs -/

theorem bitLenAux_lt : ∀ (fuel n : Nat), n ≤ fuel → n < 2 ^ bitLenAux fuel n := by
  intro fuel
  induction fuel with
  | zero => intro n h; simp [bitLenAux]; omega
  | succ f ih =>
    intro n h
    unfold bitLenAux
    by_cases hn : n = 0
    · simp [hn]
    · rw [if_neg hn]
      have h2 := ih (n / 2) (by omega)
      rw [pow_succ]
      omega

theorem bitLenAux_le : ∀ (fuel n : Nat), n ≤ fuel → n ≠ 0 → 2 ^ (bitLenAux fuel n - 1) ≤ n := by
  intro fuel
  induction fuel with
  | zero => intro n h hn; omega
  | succ f ih =>
    intro n h hn
    unfold bitLenAux
    rw [if_neg hn]
    by_cases h1 : n / 2 = 0
    · have hb : bitLenAux f (n / 2) = 0 := by
        rw [h1]; cases f <;> simp [bitLenAux]
      rw [hb]; simp; omega
    · have h2 := ih (n / 2) (by omega) h1
      have h3 : 1 ≤ bitLenAux f (n / 2) := by
        cases f with
        | zero => omega
        | succ g => unfold bitLenAux; rw [if_neg h1]; omega
      have h4 : bitLenAux f (n / 2) + 1 - 1 = (bitLenAux f (n / 2) - 1) + 1 := by omega
      rw [h4, pow_succ]
      omega

theorem bitLen_lt (n : Nat) : n < 2 ^ bitLen n := bitLenAux_lt n n (Nat.le_refl n)

theorem bitLen_le (n : Nat) (hn : n ≠ 0) : 2 ^ (bitLen n - 1) ≤ n :=
  bitLenAux_le n n (Nat.le_refl n) hn

theorem bitLen_le_of_lt (n k : Nat) (hn : n ≠ 0) (h : n < 2 ^ k) : bitLen n ≤ k := by
  by_contra hc
  have h1 : 2 ^ k ≤ 2 ^ (bitLen n - 1) := Nat.pow_le_pow_right (by norm_num) (by omega)
  have h2 := bitLen_le n hn
  omega

theorem bitLen_pos (n : Nat) (hn : n ≠ 0) : 1 ≤ bitLen n := by
  by_contra hc
  have h0 : bitLen n = 0 := by omega
  have h1 := bitLen_lt n
  rw [h0] at h1
  omega

namespace F64

theorem round_small (neg : Bool) (m : Nat) (hm : m ≠ 0) (hlt : m < 2 ^ 53) :
    round neg m 0 = fin neg (m * 2 ^ (53 - bitLen m)) (-((53 - bitLen m : Nat) : Int)) := by
  have hb := bitLen_le_of_lt m 53 hm hlt
  have hp := bitLen_pos m hm
  have hlt2 := bitLen_lt m
  have he1 : max ((0 : Int) + (bitLen m : Int) - 53) (-1074) = -((53 - bitLen m : Nat) : Int) := by
    omega
  have hq : m * 2 ^ (53 - bitLen m) < 2 ^ 53 := by
    calc m * 2 ^ (53 - bitLen m) < 2 ^ bitLen m * 2 ^ (53 - bitLen m) :=
          Nat.mul_lt_mul_of_pos_right hlt2 (by positivity)
      _ = 2 ^ 53 := by rw [← pow_add]; congr 1; omega
  unfold round
  rw [if_neg hm]
  simp only [he1]
  have h1 : (-((53 - bitLen m : Nat) : Int)) ≤ 0 := by omega
  have h2 : ((0 : Int) - -((53 - bitLen m : Nat) : Int)).toNat = 53 - bitLen m := by omega
  rw [if_pos h1, h2]
  have h3 : m * 2 ^ (53 - bitLen m) ≠ 2 ^ 53 := by omega
  rw [if_neg h3, if_neg h3]
  have h4 : ¬ ((971 : Int) < -((53 - bitLen m : Nat) : Int)) := by omega
  rw [if_neg h4]

theorem signed_natAbs (n : Int) : signed (decide (n < 0)) n.natAbs = n := by
  unfold signed
  by_cases h : n < 0
  · simp only [h, decide_True, if_true]; omega
  · simp only [h, decide_False]; simp; omega

theorem toInt?_round_small (neg : Bool) (m : Nat) (hm : m ≠ 0) (hlt : m < 2 ^ 53) :
    (round neg m 0).toInt? = some (signed neg m) := by
  rw [round_small neg m hm hlt]
  unfold toInt?
  by_cases hk : 53 - bitLen m = 0
  · simp [hk]
  · have h1 : ¬ ((0 : Int) ≤ -((53 - bitLen m : Nat) : Int)) := by omega
    have h2 : (-(-((53 - bitLen m : Nat) : Int))).toNat = 53 - bitLen m := by omega
    simp only [h1, if_false, h2]
    have hpos : 0 < 2 ^ (53 - bitLen m) := by positivity
    rw [Nat.mul_mod_left, if_pos rfl, Nat.mul_div_cancel _ hpos]

theorem toInt?_ofInt (n : Int) (h : n.natAbs ≤ 2 ^ 53) : (ofInt n).toInt? = some n := by
  unfold ofInt
  by_cases h0 : n.natAbs = 0
  · have hn : n = 0 := by omega
    subst hn
    have hz : round (decide ((0 : Int) < 0)) (0 : Int).natAbs 0 = fin false 0 (-1074) := rfl
    rw [hz]
    have hneg : ¬ ((0 : Int) ≤ -1074) := by decide
    simp only [toInt?, hneg, if_false, Nat.zero_mod, if_true, Nat.zero_div, signed]
    rfl
  · by_cases h1 : n.natAbs = 2 ^ 53
    · have hn : n = 9007199254740992 ∨ n = -9007199254740992 := by omega
      rcases hn with rfl | rfl
      · rfl
      · rfl
    · rw [toInt?_round_small _ _ h0 (by omega), signed_natAbs]

end F64

namespace approval

open models

/-- The result of `ApproveJob` written out by the outcome of the five checks. -/
theorem approveJob_eq (parseFloat : String → Option F64) (now : Time) (ja : JobApprover)
    (job : JobPosting) :
    ApproveJob parseFloat now ja job =
      { JobID := job.ID,
        Approved := isValidLocation job && isFullTime job &&
          meetsSalaryRequirement parseFloat ja job && !isStaffingFirm job &&
          hasValidLanguage job,
        Reasons := specReasons (isValidLocation job) (isFullTime job)
          (meetsSalaryRequirement parseFloat ja job) (!isStaffingFirm job)
          (hasValidLanguage job),
        ProcessedAt := now } := by
  unfold ApproveJob reject specReasons
  cases isValidLocation job <;> cases isFullTime job <;>
    cases meetsSalaryRequirement parseFloat ja job <;> cases isStaffingFirm job <;>
    cases hasValidLanguage job <;> rfl

theorem specReasons_nodup (a b c d e : Bool) : (specReasons a b c d e).Nodup := by
  cases a <;> cases b <;> cases c <;> cases d <;> cases e <;> decide

theorem specReasons_eq_nil (a b c d e : Bool) :
    specReasons a b c d e = [] ↔ (a && b && c && d && e) = true := by
  cases a <;> cases b <;> cases c <;> cases d <;> cases e <;> decide

theorem reasonLocation_mem_specReasons (a b c d e : Bool) :
    reasonLocation ∈ specReasons a b c d e ↔ a = false := by
  cases a <;> cases b <;> cases c <;> cases d <;> cases e <;> decide

theorem reasonLanguage_mem_specReasons (a b c d e : Bool) :
    reasonLanguage ∈ specReasons a b c d e ↔ e = false := by
  cases a <;> cases b <;> cases c <;> cases d <;> cases e <;> decide

theorem isValidLocation_iff (job : JobPosting) :
    isValidLocation job = true ↔
      (job.Remote = true ∨
        strings.ToUpper (strings.TrimSpace job.Location.Country) ∈ specCountries) := by
  unfold isValidLocation specCountries
  cases job.Remote <;> simp [or_assoc]

theorem hasValidLanguage_iff (job : JobPosting) :
    hasValidLanguage job = true ↔ specLanguageRule job := by
  unfold hasValidLanguage specLanguageRule
  by_cases h0 : strings.ToLower (strings.TrimSpace job.Language) = ""
  · simp [h0]
  · by_cases h1 : strings.ToLower (strings.TrimSpace job.Language) = "english"
    · simp [h1]
    · by_cases h2 : strings.ToLower (strings.TrimSpace job.Language) = "french" ∨
        strings.ToLower (strings.TrimSpace job.Language) = "français"
      · simp [h0, h1, h2]
      · simp [h0, h1, h2]

end approval

namespace ingestion

open models

theorem normalizeLocation_error_iff (data : Any) :
    (∃ err, normalizeLocation data = .error err) ↔
      ¬ (data.isObject = true ∨ data.isString = true) := by
  cases data <;> simp [normalizeLocation, Any.isObject, Any.isString]

theorem normalizeSalary_error_iff (data : Any) :
    (∃ err, normalizeSalary data = .error err) ↔
      ¬ (data.isObject = true ∨ data.isNumber = true) := by
  cases data <;> simp [normalizeSalary, Any.isObject, Any.isNumber]

theorem normalizeJob_eq (parseDate : String → Option Time) (now : Time)
    (raw : RawJobPosting) (id : String) :
    normalizeJob parseDate now raw id =
      match normalizeLocation raw.Location with
      | .error err => .error (.failedToNormalizeLocation err)
      | .ok location =>
        match normalizeSalary raw.Salary with
        | .error err => .error (.failedToNormalizeSalary err)
        | .ok salary =>
          .ok { ID := id, Title := raw.Title, Description := raw.Description,
                Company := raw.Company, Location := location, Salary := salary,
                EmploymentType := raw.EmploymentType,
                PostingDate := resolvedPostingDate parseDate now raw,
                CompanyType := raw.CompanyType, Language := raw.Language,
                Remote := raw.Remote } := by
  unfold normalizeJob resolvedPostingDate
  cases normalizeLocation raw.Location with
  | error e => rfl
  | ok loc =>
    cases normalizeSalary raw.Salary with
    | error e => rfl
    | ok sal =>
      by_cases hd : raw.PostingDate = ""
      · simp [hd]
      · cases hp : parseDate raw.PostingDate <;> simp [hd, hp]

theorem ingestLoop_jobs (parseDate : String → Option Time) (clock : Clock) :
    ∀ (rawJobs : List RawJobPosting) (i : Nat) (acc : IngestOutcome),
      (ingestLoop parseDate clock rawJobs i acc).jobs =
        acc.jobs ++ (rawJobs.enumFrom i).filterMap (ingestRecord parseDate clock) := by
  intro rawJobs
  induction rawJobs with
  | nil => intro i acc; simp [ingestLoop]
  | cons raw rest ih =>
    intro i acc
    unfold ingestLoop
    cases h : normalizeJob parseDate (clock.dateNow i) raw (jobID (clock.idNow i) i) with
    | error e => simp [ih, List.enumFrom, ingestRecord, h, Except.toOption]
    | ok job => simp [ih, List.enumFrom, ingestRecord, h, Except.toOption]

theorem ingestLoop_total (parseDate : String → Option Time) (clock : Clock) :
    ∀ (rawJobs : List RawJobPosting) (i : Nat) (acc : IngestOutcome),
      (ingestLoop parseDate clock rawJobs i acc).jobs.length +
          (ingestLoop parseDate clock rawJobs i acc).warnings.length =
        acc.jobs.length + acc.warnings.length + rawJobs.length := by
  intro rawJobs
  induction rawJobs with
  | nil => intro i acc; simp [ingestLoop]
  | cons raw rest ih =>
    intro i acc
    unfold ingestLoop
    cases h : normalizeJob parseDate (clock.dateNow i) raw (jobID (clock.idNow i) i) with
    | error e => simp only [ih, List.length_append, List.length_cons, List.length_nil]; omega
    | ok job => simp only [ih, List.length_append, List.length_cons, List.length_nil]; omega

theorem split_join (segments : List String) (hne : segments ≠ [])
    (hfree : ∀ seg ∈ segments, commaFree seg) :
    strings.Split (strings.Join segments ",") ',' = segments := by
  unfold strings.Split strings.Join
  have h : (List.intercalate [','] (segments.map String.data)).splitOn ',' =
      segments.map String.data := by
    apply List.splitOn_intercalate
    · intro l hl
      obtain ⟨seg, hseg, rfl⟩ := List.mem_map.mp hl
      exact hfree seg hseg
    · simpa using hne
  show List.map String.mk ((List.intercalate [','] (segments.map String.data)).splitOn ',') = _
  rw [h, List.map_map]
  conv_rhs => rw [← List.map_id segments]
  rfl

theorem join_split (s : String) : strings.Join (strings.Split s ',') "," = s := by
  unfold strings.Split strings.Join
  rw [List.map_map]
  have h : (String.data ∘ String.mk) = id := rfl
  rw [h, List.map_id]
  show String.mk (List.intercalate [','] (s.data.splitOn ',')) = s
  rw [List.intercalate_splitOn]

theorem split_ne_nil (s : String) : strings.Split s ',' ≠ [] := by
  unfold strings.Split
  simpa using List.splitOnP_ne_nil _ s.data

theorem splitOnP_go_free (p : Char → Bool) :
    ∀ (xs acc : List Char), (∀ x ∈ acc, p x = false) →
      ∀ l ∈ List.splitOnP.go p xs acc, ∀ x ∈ l, p x = false := by
  intro xs
  induction xs with
  | nil =>
    intro acc hacc l hl x hx
    simp only [List.splitOnP.go, List.mem_singleton] at hl
    subst hl
    exact hacc x (List.mem_reverse.mp hx)
  | cons a t ih =>
    intro acc hacc l hl x hx
    simp only [List.splitOnP.go] at hl
    by_cases hp : p a = true
    · simp only [hp, if_true, List.mem_cons] at hl
      rcases hl with hl | hl
      · subst hl
        exact hacc x (List.mem_reverse.mp hx)
      · exact ih [] (by simp) l hl x hx
    · simp only [hp] at hl
      refine ih (a :: acc) ?_ l hl x hx
      intro y hy
      rcases List.mem_cons.mp hy with hy | hy
      · subst hy; simpa using hp
      · exact hacc y hy

theorem split_commaFree (s : String) : ∀ seg ∈ strings.Split s ',', commaFree seg := by
  intro seg hseg
  unfold strings.Split at hseg
  obtain ⟨l, hl, rfl⟩ := List.mem_map.mp hseg
  unfold commaFree
  show ',' ∉ l
  intro hc
  have h := splitOnP_go_free (fun c => c == ',') s.data [] (by simp) l hl ',' hc
  simp at h

theorem parseLocationString_join (segments : List String) (hne : segments ≠ [])
    (hfree : ∀ seg ∈ segments, commaFree seg) :
    parseLocationString (strings.Join segments ",") =
      match segments.map strings.TrimSpace with
      | [city] => { City := city, State := "", Country := "" }
      | [city, country] => { City := city, State := "", Country := country }
      | [city, state, country] => { City := city, State := state, Country := country }
      | parts =>
        { City := parts.getD 0 "", State := "", Country := parts.getD (parts.length - 1) "" } := by
  unfold parseLocationString
  rw [split_join segments hne hfree]
  match segments, hne with
  | [a], _ => rfl
  | [a, b], _ => rfl
  | [a, b, c], _ => rfl
  | a :: b :: c :: d :: rest, _ => rfl

theorem normalizeLocation_obj (fields : List (String × Any)) :
    normalizeLocation (.obj fields) =
      .ok { City := stringField fields "city", State := stringField fields "state",
            Country := stringField fields "country" } := by
  simp only [normalizeLocation, stringField]
  split <;> split <;> split <;> simp_all

theorem stringField_of_str (fields : List (String × Any)) (key s : String)
    (h : fields.lookup key = some (.str s)) : stringField fields key = s := by
  simp [stringField, h]

theorem stringField_of_none (fields : List (String × Any)) (key : String)
    (h : fields.lookup key = none) : stringField fields key = "" := by
  simp [stringField, h]

end ingestion

namespace strings

theorem containsList_iff (sub l : List Char) : containsList sub l = true ↔ sub <:+: l := by
  induction l with
  | nil =>
    simp only [containsList, List.isEmpty_iff]
    constructor
    · intro h; subst h; exact List.infix_refl []
    · intro h; exact List.eq_nil_of_infix_nil h
  | cons c t ih =>
    simp only [containsList, Bool.or_eq_true, ih, List.isPrefixOf_iff_prefix,
      List.infix_cons_iff]

end strings

namespace approval

open models

theorem reasonSalary_mem_specReasons (a b c d e : Bool) :
    reasonSalary ∈ specReasons a b c d e ↔ c = false := by
  cases a <;> cases b <;> cases c <;> cases d <;> cases e <;> decide

theorem reasonCompany_mem_specReasons (a b c d e : Bool) :
    reasonCompany ∈ specReasons a b c d e ↔ d = false := by
  cases a <;> cases b <;> cases c <;> cases d <;> cases e <;> decide

theorem extractSalaryValue_unreadable (parseFloat : String → Option F64) (value : Any)
    (h : unreadableValue parseFloat value) :
    ExtractSalaryValue parseFloat value = F64.ofInt 0 := by
  cases value with
  | float f => exact h.elim
  | int n => exact h.elim
  | str s =>
    have hs : parseFloat s = none := h
    simp [ExtractSalaryValue, hs]
  | null => rfl
  | bool b => rfl
  | arr items => rfl
  | obj fields => rfl
  | other t => rfl

theorem meetsSalaryRequirement_of_le_zero (parseFloat : String → Option F64)
    (ja : JobApprover) (job : JobPosting)
    (h : F64.le (ExtractSalaryValue parseFloat job.Salary.Value) (F64.ofInt 0) = true) :
    meetsSalaryRequirement parseFloat ja job = false := by
  unfold meetsSalaryRequirement
  simp only [h, if_true]

/-- The salary check on a value already of type `float64` does not consult the parser. -/
theorem meetsSalaryRequirement_float (parseFloat : String → Option F64) (ja : JobApprover)
    (job : JobPosting) (v : F64) (h : job.Salary.Value = .float v) :
    meetsSalaryRequirement parseFloat ja job = meetsSalaryRequirement (fun _ => none) ja job := by
  unfold meetsSalaryRequirement
  rw [h]
  rfl

end approval

namespace approval

open models

/-- The verdict on a salary value already of type `float64` does not consult the parser,
and the clock only fills `ProcessedAt`. -/
theorem approveJob_float (parseFloat : String → Option F64) (now : Time) (ja : JobApprover)
    (job : JobPosting) (v : F64) (h : job.Salary.Value = .float v) :
    (ApproveJob parseFloat now ja job).Approved =
        (ApproveJob (fun _ => none) 0 ja job).Approved ∧
      (ApproveJob parseFloat now ja job).Reasons =
        (ApproveJob (fun _ => none) 0 ja job).Reasons := by
  rw [approveJob_eq, approveJob_eq, meetsSalaryRequirement_float parseFloat ja job v h]
  exact ⟨rfl, rfl⟩

theorem convertToUSD_eq (amount : F64) (currency : String) :
    convertToUSD amount currency =
      if strings.ToUpper (strings.TrimSpace currency) = "CAD" then
        F64.mul amount (F64.ofRat 74 100)
      else if strings.ToUpper (strings.TrimSpace currency) = "EUR" then
        F64.mul amount (F64.ofRat 109 100)
      else if strings.ToUpper (strings.TrimSpace currency) = "GBP" then
        F64.mul amount (F64.ofRat 127 100)
      else amount := by
  unfold convertToUSD
  by_cases h : strings.ToUpper (strings.TrimSpace currency) = "USD"
  · simp [h]
  · simp [h]

end approval

namespace approval

open models

theorem isStaffingFirm_iff (job : JobPosting) :
    isStaffingFirm job = true ↔
      ("staffing".data <:+: (strings.ToLower (strings.TrimSpace job.CompanyType)).data ∨
        "recruiting".data <:+: (strings.ToLower (strings.TrimSpace job.CompanyType)).data) := by
  unfold isStaffingFirm strings.Contains
  simp only [Bool.or_eq_true, strings.containsList_iff]

theorem specReasons_remote (a b c d e : Bool) :
    (specReasons a b c d e).filter (fun r => decide (r ≠ reasonLocation)) =
      specReasons true b c d e := by
  cases a <;> cases b <;> cases c <;> cases d <;> cases e <;> decide

end approval

namespace fmt

theorem digitChar_spec (d : Nat) (h : d < 10) :
    Char.ofNat (48 + d) ≠ '_' ∧ (Char.ofNat (48 + d)).toNat - 48 = d := by
  interval_cases d <;> decide

theorem natDigits_no_underscore : ∀ (fuel n : Nat), '_' ∉ natDigits fuel n := by
  intro fuel
  induction fuel with
  | zero => intro n; simp [natDigits]
  | succ f ih =>
    intro n
    unfold natDigits
    by_cases h : n < 10
    · rw [if_pos h]
      simp only [List.mem_singleton]
      exact fun hc => (digitChar_spec n h).1 hc.symm
    · rw [if_neg h]
      simp only [List.mem_append, List.mem_singleton, not_or]
      exact ⟨ih (n / 10), fun hc => (digitChar_spec (n % 10) (Nat.mod_lt _ (by norm_num))).1 hc.symm⟩

theorem digitsValue_natDigits : ∀ (fuel n : Nat), n < fuel →
    digitsValue (natDigits fuel n) = n := by
  intro fuel
  induction fuel with
  | zero => intro n h; omega
  | succ f ih =>
    intro n hn
    unfold natDigits
    by_cases h : n < 10
    · rw [if_pos h]
      simp only [digitsValue, List.foldl_cons, List.foldl_nil]
      have := (digitChar_spec n h).2
      omega
    · rw [if_neg h]
      have h1 := ih (n / 10) (by omega)
      simp only [digitsValue, List.foldl_append, List.foldl_cons, List.foldl_nil] at h1 ⊢
      rw [h1]
      have := (digitChar_spec (n % 10) (Nat.mod_lt _ (by norm_num))).2
      omega

theorem natDigits_injective (i j : Nat) (h : natDigits (i + 1) i = natDigits (j + 1) j) :
    i = j := by
  have hi := digitsValue_natDigits (i + 1) i (Nat.lt_succ_self i)
  have hj := digitsValue_natDigits (j + 1) j (Nat.lt_succ_self j)
  rw [h] at hi
  omega

end fmt

namespace ingestion

open models

/-- Two lists that agree after a separator absent from both heads have the same head. -/
theorem head_before_separator (x : Char) :
    ∀ (a b r r' : List Char), x ∉ a → x ∉ b → a ++ x :: r = b ++ x :: r' → a = b := by
  intro a
  induction a with
  | nil =>
    intro b r r' _ hb h
    cases b with
    | nil => rfl
    | cons y b' =>
      simp only [List.nil_append, List.cons_append, List.cons.injEq] at h
      exact absurd (h.1 ▸ List.mem_cons_self y b') hb
  | cons c a' ih =>
    intro b r r' ha hb h
    cases b with
    | nil =>
      simp only [List.nil_append, List.cons_append, List.cons.injEq] at h
      exact absurd (h.1 ▸ List.mem_cons_self c a') ha
    | cons y b' =>
      simp only [List.cons_append, List.cons.injEq] at h
      rw [h.1, ih b' r r' (fun hm => ha (List.mem_cons_of_mem _ hm))
        (fun hm => hb (List.mem_cons_of_mem _ hm)) h.2]

theorem jobID_data (now : Time) (i : Nat) :
    (jobID now i).data =
      ("job_" ++ fmt.formatInt now).data ++ '_' :: fmt.natDigits (i + 1) i := by
  have hi : fmt.formatInt (i : Int) = fmt.formatNat i := by
    unfold fmt.formatInt
    have : ¬ ((i : Int) < 0) := by omega
    rw [if_neg this, Int.natAbs_ofNat]
  unfold jobID
  rw [hi]
  simp [String.data_append, fmt.formatNat]

theorem jobID_index_injective (t t' : Time) (i j : Nat) (h : jobID t i = jobID t' j) :
    i = j := by
  have hd : (jobID t i).data = (jobID t' j).data := by rw [h]
  rw [jobID_data, jobID_data] at hd
  have hr := congrArg List.reverse hd
  simp only [List.reverse_append, List.reverse_cons, List.append_assoc,
    List.singleton_append] at hr
  have hrev := head_before_separator '_' _ _ _ _
    (by simpa using fmt.natDigits_no_underscore (i + 1) i)
    (by simpa using fmt.natDigits_no_underscore (j + 1) j) hr
  exact fmt.natDigits_injective i j (List.reverse_injective hrev)

theorem jobID_ne_empty (now : Time) (i : Nat) : jobID now i ≠ "" := by
  intro h
  have hd : (jobID now i).data = [] := by rw [h]
  rw [jobID_data] at hd
  simp at hd

theorem ingestRecord_id (parseDate : String → Option Time) (clock : Clock)
    (p : Nat × RawJobPosting) (job : JobPosting)
    (h : ingestRecord parseDate clock p = some job) : job.ID = jobID (clock.idNow p.1) p.1 := by
  unfold ingestRecord at h
  rw [normalizeJob_eq] at h
  cases hl : normalizeLocation p.2.Location with
  | error e => simp [hl, Except.toOption] at h
  | ok loc =>
    cases hs : normalizeSalary p.2.Salary with
    | error e => simp [hl, hs, Except.toOption] at h
    | ok sal =>
      simp only [hl, hs, Except.toOption, Option.some.injEq] at h
      rw [← h]

theorem enumFrom_pairwise_fst {α : Type} : ∀ (l : List α) (n : Nat),
    (l.enumFrom n).Pairwise (fun p q => p.1 ≠ q.1) := by
  intro l
  induction l with
  | nil => intro n; simp
  | cons a t ih =>
    intro n
    rw [List.enumFrom_cons, List.pairwise_cons]
    refine ⟨?_, ih (n + 1)⟩
    intro q hq
    have := List.le_fst_of_mem_enumFrom hq
    show n ≠ q.1
    omega

end ingestion

namespace F64

theorem round_sign (neg : Bool) (m : Nat) (e : Int) :
    round neg m e = inf neg ∨ ∃ q e', round neg m e = fin neg q e' := by
  have key : ∀ (c : Prop) [Decidable c] (q : Nat) (e' : Int),
      (if c then inf neg else fin neg q e') = inf neg ∨
        ∃ q' e'', (if c then inf neg else fin neg q e') = fin neg q' e'' := by
    intro c _ q e'
    by_cases h : c <;> simp [h]
  unfold round
  by_cases hm : m = 0
  · right; exact ⟨0, -1074, by simp [hm]⟩
  · rw [if_neg hm]
    exact key _ _ _

theorem zero_le_ofInt (n : Int) (h : 0 ≤ n) : le (ofInt 0) (ofInt n) = true := by
  have hz : ofInt 0 = fin false 0 (-1074) := rfl
  have hn : ofInt n = round false n.natAbs 0 := by
    unfold ofInt
    have : ¬ (n < 0) := by omega
    simp [this]
  rw [hz, hn]
  rcases round_sign false n.natAbs 0 with h1 | ⟨q, e', h1⟩
  · rw [h1]; rfl
  · rw [h1]; simp [le]

end F64

namespace approval

open models

theorem isValidLocation_congr (j1 j2 : JobPosting) (hr : j1.Remote = j2.Remote)
    (hc : j1.Location.Country = j2.Location.Country) :
    isValidLocation j1 = isValidLocation j2 := by
  unfold isValidLocation
  rw [hr, hc]

theorem isFullTime_congr (j1 j2 : JobPosting) (h : j1.EmploymentType = j2.EmploymentType) :
    isFullTime j1 = isFullTime j2 := by
  unfold isFullTime
  rw [h]

theorem meetsSalaryRequirement_congr (parseFloat : String → Option F64) (ja : JobApprover)
    (j1 j2 : JobPosting) (h : j1.Salary = j2.Salary) :
    meetsSalaryRequirement parseFloat ja j1 = meetsSalaryRequirement parseFloat ja j2 := by
  unfold meetsSalaryRequirement
  rw [h]

theorem isStaffingFirm_congr (j1 j2 : JobPosting) (h : j1.CompanyType = j2.CompanyType) :
    isStaffingFirm j1 = isStaffingFirm j2 := by
  unfold isStaffingFirm
  rw [h]

theorem hasValidLanguage_congr (j1 j2 : JobPosting) (hl : j1.Language = j2.Language)
    (hc : j1.Location.Country = j2.Location.Country) :
    hasValidLanguage j1 = hasValidLanguage j2 := by
  unfold hasValidLanguage
  rw [hl, hc]

/-- The verdict reads only the remote flag, the country, the employment type, the salary,
the company type and the language. -/
theorem approveJob_congr (parseFloat : String → Option F64) (now : Time) (ja : JobApprover)
    (j1 j2 : JobPosting) (hr : j1.Remote = j2.Remote)
    (hc : j1.Location.Country = j2.Location.Country)
    (he : j1.EmploymentType = j2.EmploymentType) (hs : j1.Salary = j2.Salary)
    (ht : j1.CompanyType = j2.CompanyType) (hl : j1.Language = j2.Language) :
    (ApproveJob parseFloat now ja j1).Approved = (ApproveJob parseFloat now ja j2).Approved ∧
      (ApproveJob parseFloat now ja j1).Reasons = (ApproveJob parseFloat now ja j2).Reasons := by
  rw [approveJob_eq, approveJob_eq, isValidLocation_congr j1 j2 hr hc,
    isFullTime_congr j1 j2 he, meetsSalaryRequirement_congr parseFloat ja j1 j2 hs,
    isStaffingFirm_congr j1 j2 ht, hasValidLanguage_congr j1 j2 hl hc]
  exact ⟨rfl, rfl⟩

end approval

namespace ingestion

open models approval

theorem extract_normalizeSalary (parseFloat : String → Option F64) (data : Any)
    (salary : Salary) (h : normalizeSalary data = .ok salary) :
    ExtractSalaryValue parseFloat salary.Value =
      ExtractSalaryValue parseFloat (carriedValue data) := by
  cases data with
  | obj fields =>
    simp only [normalizeSalary] at h
    injection h with h
    subst h
    cases hv : fields.lookup "value" with
    | none => simp only [carriedValue, hv, Option.getD]; split <;> split <;> rfl
    | some v => simp only [carriedValue, hv, Option.getD]; split <;> split <;> rfl
  | float f => simp only [normalizeSalary] at h; injection h with h; subst h; rfl
  | int n => simp only [normalizeSalary] at h; injection h with h; subst h; rfl
  | null => simp [normalizeSalary] at h
  | bool b => simp [normalizeSalary] at h
  | str s => simp [normalizeSalary] at h
  | arr items => simp [normalizeSalary] at h
  | other t => simp [normalizeSalary] at h

end ingestion

/-! ## The approval verdict -/

namespace approval

open models

/-- C1: `ApproveJob` approves exactly when the five checks (location, employment type,
salary, company type, language) all pass; its reasons are exactly the fixed texts of the
failing checks, in that fixed order and without repetition; and a posting that fails both
the location and the language check carries both reasons, location before language. -/
theorem C1_approveJob_verdict_and_reasons (parseFloat : String → Option F64) (now : Time)
    (ja : JobApprover) (job : JobPosting) :
    ((ApproveJob parseFloat now ja job).Approved = true ↔
      (isValidLocation job = true ∧ isFullTime job = true ∧
        meetsSalaryRequirement parseFloat ja job = true ∧ isStaffingFirm job = false ∧
        hasValidLanguage job = true)) ∧
    (ApproveJob parseFloat now ja job).Reasons =
      specReasons (isValidLocation job) (isFullTime job)
        (meetsSalaryRequirement parseFloat ja job) (!isStaffingFirm job)
        (hasValidLanguage job) ∧
    (ApproveJob parseFloat now ja job).Reasons.Nodup ∧
    (isValidLocation job = false → hasValidLanguage job = false →
      List.Sublist [reasonLocation, reasonLanguage]
        (ApproveJob parseFloat now ja job).Reasons) := by
  rw [approveJob_eq]
  refine ⟨?_, rfl, specReasons_nodup _ _ _ _ _, ?_⟩
  · cases isValidLocation job <;> cases isFullTime job <;>
      cases meetsSalaryRequirement parseFloat ja job <;> cases isStaffingFirm job <;>
      cases hasValidLanguage job <;> simp
  · intro h1 h5
    simp only [h1, h5]
    cases isFullTime job <;> cases meetsSalaryRequirement parseFloat ja job <;>
      cases isStaffingFirm job <;> decide

/-- C1 at a posting in the UK with no language: it fails the location and the language
check, and the location reason comes before the language reason. -/
theorem C1_witness :
    (isValidLocation { sampleJob with Language := "" } = false ∧
      hasValidLanguage { sampleJob with Language := "" } = false) ∧
    List.Sublist [reasonLocation, reasonLanguage]
      (ApproveJob (fun _ => none) 0 NewJobApprover { sampleJob with Language := "" }).Reasons :=
  ⟨by decide, (C1_approveJob_verdict_and_reasons (fun _ => none) 0 NewJobApprover
    { sampleJob with Language := "" }).2.2.2 (by decide) (by decide)⟩

/-- C2: the reasons of the result of `ApproveJob` are empty exactly when the result is
approved. -/
theorem C2_reasons_empty_iff_approved (parseFloat : String → Option F64) (now : Time)
    (ja : JobApprover) (job : JobPosting) :
    (ApproveJob parseFloat now ja job).Reasons = [] ↔
      (ApproveJob parseFloat now ja job).Approved = true := by
  rw [approveJob_eq]
  exact specReasons_eq_nil _ _ _ _ _

end approval

/-! ## Normalisation -/

namespace ingestion

open models

/-- C3: `normalizeJob` fails exactly when the location is neither an object nor a string
or the salary is neither an object nor a bare number; otherwise it returns a posting whose
id, title, description, company, employment type, company type, language and remote flag
are the inputs unchanged. -/
theorem C3_normalizeJob_fails_iff (parseDate : String → Option Time) (now : Time)
    (raw : RawJobPosting) (id : String) :
    ((∃ err, normalizeJob parseDate now raw id = .error err) ↔ specUnsupported raw) ∧
    (specUnsupported raw ∨
      ∃ job, normalizeJob parseDate now raw id = .ok job ∧
        job.ID = id ∧ job.Title = raw.Title ∧ job.Description = raw.Description ∧
        job.Company = raw.Company ∧ job.EmploymentType = raw.EmploymentType ∧
        job.CompanyType = raw.CompanyType ∧ job.Language = raw.Language ∧
        job.Remote = raw.Remote) := by
  unfold specUnsupported
  rw [← normalizeLocation_error_iff, ← normalizeSalary_error_iff, normalizeJob_eq]
  cases hl : normalizeLocation raw.Location with
  | error e => simp
  | ok loc =>
    cases hs : normalizeSalary raw.Salary with
    | error e => simp
    | ok sal => simp

/-- C4: once the feed is decoded, `IngestFromJSON` always returns; the postings are, in
input order, those of the records that normalise, each made from its record with the id
of its position; the warnings number the input length minus the output length. -/
theorem C4_batch_skips_failed_records (unmarshal : List UInt8 → Option (List RawJobPosting))
    (parseDate : String → Option Time) (clock : Clock) (jsonData : List UInt8)
    (rawJobs : List RawJobPosting) (hdecoded : unmarshal jsonData = some rawJobs) :
    ∃ out, IngestFromJSON unmarshal parseDate clock jsonData = .ok out ∧
      out.jobs = rawJobs.enum.filterMap (ingestRecord parseDate clock) ∧
      out.warnings.length = rawJobs.length - out.jobs.length := by
  refine ⟨ingestLoop parseDate clock rawJobs 0 { jobs := [], warnings := [] }, ?_, ?_, ?_⟩
  · simp [IngestFromJSON, hdecoded]
  · simp [ingestLoop_jobs, List.enum]
  · have h := ingestLoop_total parseDate clock rawJobs 0 { jobs := [], warnings := [] }
    simp only [List.length_nil] at h
    omega

/-- C4 at a batch of three records whose second has a number for its location: the first
and the third record come back, with the ids of positions 0 and 2, and one warning. -/
theorem C4_witness :
    (fun _ => some sampleBatch : List UInt8 → Option (List RawJobPosting)) [] =
      some sampleBatch ∧
    ∃ out, IngestFromJSON (fun _ => some sampleBatch) (fun _ => none) sampleClock [] = .ok out ∧
      out.jobs.map (fun job => job.ID) = ["job_1700000000_0", "job_1700000000_2"] ∧
      out.warnings.length = 1 := by
  refine ⟨rfl, ?_⟩
  obtain ⟨out, h, hjobs, hwarn⟩ :=
    C4_batch_skips_failed_records (fun _ => some sampleBatch) (fun _ => none) sampleClock []
      sampleBatch rfl
  refine ⟨out, h, ?_, ?_⟩
  · rw [hjobs]; decide
  · rw [hwarn, hjobs]; decide

end ingestion

namespace ingestion

open models

/-- C5: `parseLocationString` splits on commas and trims each segment: one segment is
the city, two are city and country, three are city, state and country, and of more than
three the first is the city and the last the country, the state staying empty; every
string is such a list of comma-free segments joined by commas. -/
theorem C5_parseLocationString_segments :
    (∀ a, commaFree a →
      parseLocationString a = { City := strings.TrimSpace a, State := "", Country := "" }) ∧
    (∀ a b, commaFree a → commaFree b →
      parseLocationString (strings.Join [a, b] ",") =
        { City := strings.TrimSpace a, State := "", Country := strings.TrimSpace b }) ∧
    (∀ a b c, commaFree a → commaFree b → commaFree c →
      parseLocationString (strings.Join [a, b, c] ",") =
        { City := strings.TrimSpace a, State := strings.TrimSpace b,
          Country := strings.TrimSpace c }) ∧
    (∀ a middle z, 2 ≤ middle.length → commaFree a → (∀ m ∈ middle, commaFree m) →
      commaFree z →
      parseLocationString (strings.Join (a :: middle ++ [z]) ",") =
        { City := strings.TrimSpace a, State := "", Country := strings.TrimSpace z }) ∧
    (∀ s, ∃ segments, segments ≠ [] ∧ (∀ seg ∈ segments, commaFree seg) ∧
      strings.Join segments "," = s) := by
  refine ⟨?_, ?_, ?_, ?_, ?_⟩
  · intro a ha
    have h := parseLocationString_join [a] (by simp) (by simpa using ha)
    have hj : strings.Join [a] "," = a := by
      simp [strings.Join, List.intercalate]
    rw [hj] at h
    exact h
  · intro a b ha hb
    exact parseLocationString_join [a, b] (by simp) (by simp [ha, hb])
  · intro a b c ha hb hc
    exact parseLocationString_join [a, b, c] (by simp) (by simp [ha, hb, hc])
  · intro a middle z hlen ha hmid hz
    rw [parseLocationString_join (a :: middle ++ [z]) (by simp)]
    · match middle, hlen with
      | m1 :: m2 :: rest, _ =>
        simp [List.getD_eq_getElem?_getD, List.getElem?_append_right]
    · intro seg hseg
      simp only [List.cons_append, List.mem_cons, List.mem_append, List.mem_singleton,
        List.not_mem_nil, or_false] at hseg
      rcases hseg with rfl | hseg | rfl
      · exact ha
      · exact hmid seg hseg
      · exact hz
  · intro s
    exact ⟨strings.Split s ',', split_ne_nil s, split_commaFree s, join_split s⟩

/-- C5 at `"New York, NY, USA "`: three segments, trimmed, in order. -/
theorem C5_witness :
    (commaFree "New York" ∧ commaFree " NY" ∧ commaFree " USA ") ∧
    parseLocationString (strings.Join ["New York", " NY", " USA "] ",") =
      { City := "New York", State := "NY", Country := "USA" } :=
  ⟨by decide, by
    have h := C5_parseLocationString_segments.2.2.1 "New York" " NY" " USA "
      (by decide) (by decide) (by decide)
    rw [h]; decide⟩

/-- C6: on a structured object `normalizeLocation` succeeds; a key holding a string gives
that string unchanged, an absent key the empty string; with all three keys holding
strings the result is exactly those three values. -/
theorem C6_normalizeLocation_object (fields : List (String × Any)) :
    (∃ location, normalizeLocation (.obj fields) = .ok location ∧
      (∀ city, fields.lookup "city" = some (.str city) → location.City = city) ∧
      (fields.lookup "city" = none → location.City = "") ∧
      (∀ state, fields.lookup "state" = some (.str state) → location.State = state) ∧
      (fields.lookup "state" = none → location.State = "") ∧
      (∀ country, fields.lookup "country" = some (.str country) →
        location.Country = country) ∧
      (fields.lookup "country" = none → location.Country = "")) ∧
    (∀ city state country, fields.lookup "city" = some (.str city) →
      fields.lookup "state" = some (.str state) →
      fields.lookup "country" = some (.str country) →
      normalizeLocation (.obj fields) =
        .ok { City := city, State := state, Country := country }) := by
  refine ⟨⟨_, normalizeLocation_obj fields, ?_, ?_, ?_, ?_, ?_, ?_⟩, ?_⟩
  · exact fun city h => stringField_of_str fields "city" city h
  · exact stringField_of_none fields "city"
  · exact fun state h => stringField_of_str fields "state" state h
  · exact stringField_of_none fields "state"
  · exact fun country h => stringField_of_str fields "country" country h
  · exact stringField_of_none fields "country"
  · intro city state country h1 h2 h3
    rw [normalizeLocation_obj, stringField_of_str _ _ _ h1, stringField_of_str _ _ _ h2,
      stringField_of_str _ _ _ h3]

/-- C6 at an object with a padded city, no state and a lower-case country: the strings
come back untrimmed and in their own case, the state empty. -/
theorem C6_witness :
    (List.lookup "city" [("city", Any.str " Toronto "), ("country", Any.str "canada")] =
        some (.str " Toronto ") ∧
      List.lookup "state" [("city", Any.str " Toronto "), ("country", Any.str "canada")] =
        none ∧
      List.lookup "country" [("city", Any.str " Toronto "), ("country", Any.str "canada")] =
        some (.str "canada")) ∧
    ∃ location,
      normalizeLocation (.obj [("city", .str " Toronto "), ("country", .str "canada")]) =
        .ok location ∧
      location.City = " Toronto " ∧ location.State = "" ∧ location.Country = "canada" := by
  refine ⟨⟨rfl, rfl, rfl⟩, ?_⟩
  obtain ⟨location, h, hc1, _, _, hs2, hk1, _⟩ :=
    (C6_normalizeLocation_object [("city", .str " Toronto "), ("country", .str "canada")]).1
  exact ⟨location, h, hc1 _ rfl, hs2 rfl, hk1 _ rfl⟩

/-- C7, as stated, fails at the integer 9007199254740993 (`2^53 + 1`): the salary value
is the `float64` 9007199254740992. -/
theorem C7_counterexample : ¬ specBareIntegerSalary 9007199254740993 := by
  rintro ⟨salary, h, hv, -, -⟩
  have h2 : normalizeSalary (.int 9007199254740993) =
      .ok { Value := .float (F64.fin false 4503599627370496 1), Currency := "USD", Unit := "" } :=
    rfl
  rw [h2] at h
  injection h with h
  subst h
  have h3 : (F64.fin false 4503599627370496 1).toInt? = some 9007199254740992 := rfl
  simp only [Any.isInteger] at hv
  rw [h3] at hv
  injection hv with hv
  omega

/-- C7, amended: a bare `float64` gives the salary with that value, currency `"USD"` and
empty unit; a bare integer `n` gives the value `float64(n)`, which is the number `n`
whenever `|n| ≤ 2^53`. -/
theorem C7_bare_number_salary :
    (∀ f, normalizeSalary (.float f) = .ok { Value := .float f, Currency := "USD", Unit := "" }) ∧
    (∀ n, normalizeSalary (.int n) =
      .ok { Value := .float (F64.ofInt n), Currency := "USD", Unit := "" }) ∧
    (∀ n : Int, n.natAbs ≤ 2 ^ 53 → specBareIntegerSalary n) := by
  refine ⟨fun _ => rfl, fun _ => rfl, ?_⟩
  intro n hn
  exact ⟨_, rfl, F64.toInt?_ofInt n hn, rfl, rfl⟩

/-- C7 at the integer 80000. -/
theorem C7_witness :
    (80000 : Int).natAbs ≤ 2 ^ 53 ∧ specBareIntegerSalary 80000 :=
  ⟨by decide, C7_bare_number_salary.2.2 80000 (by decide)⟩

/-- C8: what the code does at the input of the salary test: the bare 80000 of a posting
located in the UK is given the currency `"USD"`, not `"GBP"`; the location plays no part. -/
theorem C8_salary_currency_ignores_location :
    (∃ salary, normalizeSalary (.int 80000) = .ok salary ∧
      salary.Value.isInteger 80000 ∧ salary.Currency = "USD" ∧ salary.Currency ≠ "GBP") ∧
    (∀ parseDate now id, ∃ job, normalizeJob parseDate now (ukRaw (.int 80000)) id = .ok job ∧
      job.Location.Country = "UK" ∧ job.Salary.Currency = "USD" ∧
      job.Salary.Currency ≠ "GBP") := by
  refine ⟨⟨_, rfl, ?_, rfl, by decide⟩, ?_⟩
  · exact F64.toInt?_ofInt 80000 (by decide)
  · intro parseDate now id
    rw [normalizeJob_eq]
    refine ⟨_, rfl, rfl, rfl, ?_⟩
    show ("USD" : String) ≠ "GBP"
    decide

end ingestion

/-! ## The location and language rules -/

namespace approval

open models

/-- C9: the location check passes, and the location reason is absent from the reasons,
exactly when the posting is remote or its country, trimmed and upper-cased, is one of
USA, US, UNITED STATES, CANADA, CA. -/
theorem C9_location_rule (parseFloat : String → Option F64) (now : Time)
    (ja : JobApprover) (job : JobPosting) :
    (isValidLocation job = true ↔
      (job.Remote = true ∨
        strings.ToUpper (strings.TrimSpace job.Location.Country) ∈ specCountries)) ∧
    (reasonLocation ∉ (ApproveJob parseFloat now ja job).Reasons ↔
      (job.Remote = true ∨
        strings.ToUpper (strings.TrimSpace job.Location.Country) ∈ specCountries)) := by
  refine ⟨isValidLocation_iff job, ?_⟩
  rw [approveJob_eq, ← isValidLocation_iff]
  simp [reasonLocation_mem_specReasons]

/-- C10, as stated, fails at the language `"English "` (a trailing space): the check
passes although the language is not, case-insensitively, `"english"`. -/
theorem C10_counterexample :
    hasValidLanguage { sampleJob with Language := "English " } = true ∧
      ¬ claimedLanguageRule { sampleJob with Language := "English " } := by
  decide

/-- C10, amended: the language check passes, and the language reason is absent from the
reasons, exactly when the language, trimmed and lower-cased, is `"english"`, or is
`"french"` or `"français"` with the country, trimmed and upper-cased, CANADA or CA; the
remote flag plays no part. -/
theorem C10_language_rule (parseFloat : String → Option F64) (now : Time)
    (ja : JobApprover) (job : JobPosting) :
    (hasValidLanguage job = true ↔ specLanguageRule job) ∧
    (reasonLanguage ∉ (ApproveJob parseFloat now ja job).Reasons ↔ specLanguageRule job) ∧
    (∀ remote, hasValidLanguage { job with Remote := remote } = hasValidLanguage job) := by
  refine ⟨hasValidLanguage_iff job, ?_, fun _ => rfl⟩
  rw [approveJob_eq, ← hasValidLanguage_iff]
  simp [reasonLanguage_mem_specReasons]

end approval

/-! ## The salary and company-type rules -/

namespace approval

open models

/-- C11: a posting whose extracted salary value is zero or negative fails the salary
check and carries the salary reason, whatever its currency and unit; a value that is
absent, of a non-numeric type or an unparsable string is extracted as 0 and so fails. -/
theorem C11_nonpositive_salary_fails (parseFloat : String → Option F64) (now : Time)
    (ja : JobApprover) (job : JobPosting) :
    (F64.le (ExtractSalaryValue parseFloat job.Salary.Value) (F64.ofInt 0) = true →
      meetsSalaryRequirement parseFloat ja job = false ∧
        reasonSalary ∈ (ApproveJob parseFloat now ja job).Reasons) ∧
    (unreadableValue parseFloat job.Salary.Value →
      ExtractSalaryValue parseFloat job.Salary.Value = F64.ofInt 0 ∧
        meetsSalaryRequirement parseFloat ja job = false ∧
        reasonSalary ∈ (ApproveJob parseFloat now ja job).Reasons) := by
  have key : F64.le (ExtractSalaryValue parseFloat job.Salary.Value) (F64.ofInt 0) = true →
      meetsSalaryRequirement parseFloat ja job = false ∧
        reasonSalary ∈ (ApproveJob parseFloat now ja job).Reasons := by
    intro h
    have hm := meetsSalaryRequirement_of_le_zero parseFloat ja job h
    refine ⟨hm, ?_⟩
    rw [approveJob_eq]
    exact (reasonSalary_mem_specReasons _ _ _ _ _).mpr hm
  refine ⟨key, ?_⟩
  intro h
  have hz := extractSalaryValue_unreadable parseFloat job.Salary.Value h
  refine ⟨hz, key ?_⟩
  rw [hz]
  decide

/-- C11 at a negative salary (-5 USD) and at a salary given as the string `"abc"`. -/
theorem C11_witness :
    (F64.le (ExtractSalaryValue (fun _ => none)
        (remoteJob { Value := .float (F64.ofInt (-5)), Currency := "USD", Unit := "" }).Salary.Value)
        (F64.ofInt 0) = true ∧
      reasonSalary ∈ (ApproveJob (fun _ => none) 0 NewJobApprover
        (remoteJob { Value := .float (F64.ofInt (-5)), Currency := "USD", Unit := "" })).Reasons) ∧
    (unreadableValue (fun _ => none)
        (remoteJob { Value := .str "abc", Currency := "GBP", Unit := "hourly" }).Salary.Value ∧
      reasonSalary ∈ (ApproveJob (fun _ => none) 0 NewJobApprover
        (remoteJob { Value := .str "abc", Currency := "GBP", Unit := "hourly" })).Reasons) :=
  ⟨⟨by decide, ((C11_nonpositive_salary_fails (fun _ => none) 0 NewJobApprover
      (remoteJob { Value := .float (F64.ofInt (-5)), Currency := "USD", Unit := "" })).1
      (by decide)).2⟩,
   ⟨rfl, ((C11_nonpositive_salary_fails (fun _ => none) 0 NewJobApprover
      (remoteJob { Value := .str "abc", Currency := "GBP", Unit := "hourly" })).2 rfl).2.2⟩⟩

end approval

namespace approval

open models

/-- C12: what the code does at the thresholds: a salary of exactly 100000 USD a year, and
one of exactly 45 USD an hour, pass the salary check (the comparison is `>=`), and the
posting is approved without the salary reason. -/
theorem C12_salary_at_threshold_passes (parseFloat : String → Option F64) (now : Time) :
    (meetsSalaryRequirement parseFloat NewJobApprover
        (remoteJob { Value := .float (F64.ofInt 100000), Currency := "USD", Unit := "" }) = true ∧
      (ApproveJob parseFloat now NewJobApprover
        (remoteJob { Value := .float (F64.ofInt 100000), Currency := "USD", Unit := "" })).Approved
          = true ∧
      (ApproveJob parseFloat now NewJobApprover
        (remoteJob { Value := .float (F64.ofInt 100000), Currency := "USD", Unit := "" })).Reasons
          = []) ∧
    (meetsSalaryRequirement parseFloat NewJobApprover
        (remoteJob { Value := .float (F64.ofInt 45), Currency := "USD", Unit := "hourly" }) = true ∧
      (ApproveJob parseFloat now NewJobApprover
        (remoteJob { Value := .float (F64.ofInt 45), Currency := "USD", Unit := "hourly" })).Approved
          = true ∧
      (ApproveJob parseFloat now NewJobApprover
        (remoteJob { Value := .float (F64.ofInt 45), Currency := "USD", Unit := "hourly" })).Reasons
          = []) := by
  refine ⟨⟨?_, ?_, ?_⟩, ⟨?_, ?_, ?_⟩⟩
  · rw [meetsSalaryRequirement_float parseFloat _ _ (F64.ofInt 100000) rfl]; decide
  · rw [(approveJob_float parseFloat now _ _ (F64.ofInt 100000) rfl).1]; decide
  · rw [(approveJob_float parseFloat now _ _ (F64.ofInt 100000) rfl).2]; decide
  · rw [meetsSalaryRequirement_float parseFloat _ _ (F64.ofInt 45) rfl]; decide
  · rw [(approveJob_float parseFloat now _ _ (F64.ofInt 45) rfl).1]; decide
  · rw [(approveJob_float parseFloat now _ _ (F64.ofInt 45) rfl).2]; decide

/-- C13, as stated, fails at the currency string `"cad"`: the code converts 100 to 74,
the table read on the string as it stands leaves 100. -/
theorem C13_counterexample :
    convertToUSD (F64.ofInt 100) "cad" = F64.ofInt 74 ∧
      claimedConvertToUSD (F64.ofInt 100) "cad" = F64.ofInt 100 ∧
      convertToUSD (F64.ofInt 100) "cad" ≠ claimedConvertToUSD (F64.ofInt 100) "cad" := by
  decide

/-- C13, amended: with the currency string trimmed and upper-cased, `convertToUSD`
returns the amount for `USD`, the amount times 0.74, 1.09, 1.27 for `CAD`, `EUR`, `GBP`,
and the amount unchanged for every other string, the empty one included; a salary with no
currency is checked exactly as one in USD. -/
theorem C13_convertToUSD_table (amount : F64) (currency : String) :
    (strings.ToUpper (strings.TrimSpace currency) = "USD" →
      convertToUSD amount currency = amount) ∧
    (strings.ToUpper (strings.TrimSpace currency) = "CAD" →
      convertToUSD amount currency = F64.mul amount (F64.ofRat 74 100)) ∧
    (strings.ToUpper (strings.TrimSpace currency) = "EUR" →
      convertToUSD amount currency = F64.mul amount (F64.ofRat 109 100)) ∧
    (strings.ToUpper (strings.TrimSpace currency) = "GBP" →
      convertToUSD amount currency = F64.mul amount (F64.ofRat 127 100)) ∧
    (strings.ToUpper (strings.TrimSpace currency) ∉ ["USD", "CAD", "EUR", "GBP"] →
      convertToUSD amount currency = amount) ∧
    convertToUSD amount "" = amount ∧
    (∀ parseFloat ja job, job.Salary.Currency = "" →
      meetsSalaryRequirement parseFloat ja job =
        meetsSalaryRequirement parseFloat ja
          { job with Salary := { job.Salary with Currency := "USD" } }) := by
  refine ⟨?_, ?_, ?_, ?_, ?_, ?_, ?_⟩
  · intro h; rw [convertToUSD_eq]; simp [h]
  · intro h; rw [convertToUSD_eq]; simp [h]
  · intro h; rw [convertToUSD_eq]; simp [h]
  · intro h; rw [convertToUSD_eq]; simp [h]
  · intro h
    simp only [List.mem_cons, List.mem_singleton, List.not_mem_nil, or_false, not_or] at h
    rw [convertToUSD_eq]; simp [h]
  · rw [convertToUSD_eq]
    have h : strings.ToUpper (strings.TrimSpace "") = "" := by decide
    simp [h]
  · intro parseFloat ja job h
    have h1 : ∀ a, convertToUSD a "" = convertToUSD a "USD" := by
      intro a
      rw [convertToUSD_eq, convertToUSD_eq]
      have e1 : strings.ToUpper (strings.TrimSpace "") = "" := by decide
      have e2 : strings.ToUpper (strings.TrimSpace "USD") = "USD" := by decide
      simp [e1, e2]
    unfold meetsSalaryRequirement
    simp only [h, h1]

/-- C13 at 150000 GBP, written `" gbp "`: the amount times 1.27, that is 190500. -/
theorem C13_witness :
    strings.ToUpper (strings.TrimSpace " gbp ") = "GBP" ∧
      convertToUSD (F64.ofInt 150000) " gbp " = F64.ofInt 190500 :=
  ⟨by decide, by
    rw [(C13_convertToUSD_table (F64.ofInt 150000) " gbp ").2.2.2.1 (by decide)]
    decide⟩

end approval

namespace approval

open models

/-- C14: the company-type check fails, and the staffing reason is in the reasons, exactly
when the trimmed, lower-cased company type has `"staffing"` or `"recruiting"` as a
substring; the empty company type and `"Agency"` pass. -/
theorem C14_company_type_rule (parseFloat : String → Option F64) (now : Time)
    (ja : JobApprover) (job : JobPosting) :
    (isStaffingFirm job = true ↔
      ("staffing".data <:+: (strings.ToLower (strings.TrimSpace job.CompanyType)).data ∨
        "recruiting".data <:+: (strings.ToLower (strings.TrimSpace job.CompanyType)).data)) ∧
    (reasonCompany ∈ (ApproveJob parseFloat now ja job).Reasons ↔
      ("staffing".data <:+: (strings.ToLower (strings.TrimSpace job.CompanyType)).data ∨
        "recruiting".data <:+: (strings.ToLower (strings.TrimSpace job.CompanyType)).data)) ∧
    isStaffingFirm { job with CompanyType := "" } = false ∧
    isStaffingFirm { job with CompanyType := "Agency" } = false ∧
    reasonCompany ∉ (ApproveJob parseFloat now ja { job with CompanyType := "" }).Reasons ∧
    reasonCompany ∉ (ApproveJob parseFloat now ja { job with CompanyType := "Agency" }).Reasons := by
  have h1 : isStaffingFirm { job with CompanyType := "" } = false := by
    show (strings.Contains (strings.ToLower (strings.TrimSpace "")) "staffing" ||
      strings.Contains (strings.ToLower (strings.TrimSpace "")) "recruiting") = false
    decide
  have h2 : isStaffingFirm { job with CompanyType := "Agency" } = false := by
    show (strings.Contains (strings.ToLower (strings.TrimSpace "Agency")) "staffing" ||
      strings.Contains (strings.ToLower (strings.TrimSpace "Agency")) "recruiting") = false
    decide
  refine ⟨isStaffingFirm_iff job, ?_, h1, h2, ?_, ?_⟩
  · rw [approveJob_eq, reasonCompany_mem_specReasons, ← isStaffingFirm_iff]
    cases isStaffingFirm job <;> simp
  · rw [approveJob_eq, reasonCompany_mem_specReasons, h1]; simp
  · rw [approveJob_eq, reasonCompany_mem_specReasons, h2]; simp

/-- C15: making a posting remote removes the location reason from its reasons and changes
nothing else: the location reason is absent afterwards, and the other reasons are those
of the original posting, in the same order. -/
theorem C15_remote_only_removes_location_reason (parseFloat : String → Option F64)
    (now : Time) (ja : JobApprover) (job : JobPosting) :
    (ApproveJob parseFloat now ja { job with Remote := true }).Reasons =
        (ApproveJob parseFloat now ja job).Reasons.filter
          (fun r => decide (r ≠ reasonLocation)) ∧
    reasonLocation ∉ (ApproveJob parseFloat now ja { job with Remote := true }).Reasons ∧
    (∀ r, r ≠ reasonLocation →
      (r ∈ (ApproveJob parseFloat now ja { job with Remote := true }).Reasons ↔
        r ∈ (ApproveJob parseFloat now ja job).Reasons)) := by
  have hloc : isValidLocation { job with Remote := true } = true := rfl
  have hemp : isFullTime { job with Remote := true } = isFullTime job := rfl
  have hsal : meetsSalaryRequirement parseFloat ja { job with Remote := true } =
      meetsSalaryRequirement parseFloat ja job := rfl
  have hcom : isStaffingFirm { job with Remote := true } = isStaffingFirm job := rfl
  have hlan : hasValidLanguage { job with Remote := true } = hasValidLanguage job := rfl
  have key : (ApproveJob parseFloat now ja { job with Remote := true }).Reasons =
      (ApproveJob parseFloat now ja job).Reasons.filter
        (fun r => decide (r ≠ reasonLocation)) := by
    rw [approveJob_eq, approveJob_eq, hloc, hemp, hsal, hcom, hlan]
    exact (specReasons_remote _ _ _ _ _).symm
  refine ⟨key, ?_, ?_⟩
  · rw [key]; simp
  · intro r hr
    rw [key]; simp [hr]

/-- C15 at the UK posting, rejected for its location alone: once remote it has no reason
left. -/
theorem C15_witness :
    (ApproveJob (fun _ => none) 0 NewJobApprover sampleJob).Reasons = [reasonLocation] ∧
      (ApproveJob (fun _ => none) 0 NewJobApprover { sampleJob with Remote := true }).Reasons
        = [] := by
  refine ⟨by decide, ?_⟩
  rw [(C15_remote_only_removes_location_reason (fun _ => none) 0 NewJobApprover sampleJob).1]
  decide

end approval

namespace ingestion

open models

/-- C16: a location and a salary fed back as structured objects normalise to themselves,
field for field; so do, in particular, those that `normalizeLocation` and
`normalizeSalary` return. -/
theorem C16_normalization_idempotent :
    (∀ location : Location, normalizeLocation (locationObject location) = .ok location) ∧
    (∀ salary : Salary, normalizeSalary (salaryObject salary) = .ok salary) ∧
    (∀ data location, normalizeLocation data = .ok location →
      normalizeLocation (locationObject location) = .ok location) ∧
    (∀ data salary, normalizeSalary data = .ok salary →
      normalizeSalary (salaryObject salary) = .ok salary) := by
  have h1 : ∀ location : Location, normalizeLocation (locationObject location) = .ok location :=
    fun _ => rfl
  have h2 : ∀ salary : Salary, normalizeSalary (salaryObject salary) = .ok salary :=
    fun _ => rfl
  exact ⟨h1, h2, fun _ location _ => h1 location, fun _ salary _ => h2 salary⟩

/-- C16 at the location parsed from `"Toronto, ON, Canada"` and the salary made of the
bare number 80000. -/
theorem C16_witness :
    (normalizeLocation (.str "Toronto, ON, Canada") =
        .ok { City := "Toronto", State := "ON", Country := "Canada" } ∧
      normalizeLocation (locationObject { City := "Toronto", State := "ON", Country := "Canada" })
        = .ok { City := "Toronto", State := "ON", Country := "Canada" }) ∧
    (normalizeSalary (.int 80000) =
        .ok { Value := .float (F64.ofInt 80000), Currency := "USD", Unit := "" } ∧
      normalizeSalary (salaryObject
          { Value := .float (F64.ofInt 80000), Currency := "USD", Unit := "" })
        = .ok { Value := .float (F64.ofInt 80000), Currency := "USD", Unit := "" }) :=
  ⟨⟨rfl, C16_normalization_idempotent.2.2.1 (.str "Toronto, ON, Canada") _ rfl⟩,
   ⟨rfl, C16_normalization_idempotent.2.2.2 (.int 80000) _ rfl⟩⟩

end ingestion

/-! ## The ids of a batch -/

namespace ingestion

open models

/-- C17: every posting a batch returns has the id `job_<time>_<index>` of its record,
which is not empty, and two postings of one batch never share an id, whatever the clock
reads for each record. -/
theorem C17_ids_nonempty_and_distinct (unmarshal : List UInt8 → Option (List RawJobPosting))
    (parseDate : String → Option Time) (clock : Clock) (jsonData : List UInt8)
    (rawJobs : List RawJobPosting) (hdecoded : unmarshal jsonData = some rawJobs) :
    ∃ out, IngestFromJSON unmarshal parseDate clock jsonData = .ok out ∧
      (∀ job ∈ out.jobs, ∃ i, i < rawJobs.length ∧ job.ID = jobID (clock.idNow i) i) ∧
      (∀ job ∈ out.jobs, job.ID ≠ "") ∧
      out.jobs.Pairwise (fun a b => a.ID ≠ b.ID) := by
  refine ⟨ingestLoop parseDate clock rawJobs 0 { jobs := [], warnings := [] }, ?_, ?_, ?_, ?_⟩
  · simp [IngestFromJSON, hdecoded]
  · intro job hjob
    rw [ingestLoop_jobs] at hjob
    simp only [List.nil_append, List.mem_filterMap] at hjob
    obtain ⟨p, hp, hrec⟩ := hjob
    refine ⟨p.1, ?_, ingestRecord_id parseDate clock p job hrec⟩
    have := List.fst_lt_add_of_mem_enumFrom hp
    omega
  · intro job hjob
    rw [ingestLoop_jobs] at hjob
    simp only [List.nil_append, List.mem_filterMap] at hjob
    obtain ⟨p, _, hrec⟩ := hjob
    rw [ingestRecord_id parseDate clock p job hrec]
    exact jobID_ne_empty _ _
  · rw [ingestLoop_jobs]
    simp only [List.nil_append]
    refine List.Pairwise.filterMap (ingestRecord parseDate clock) ?_
      (enumFrom_pairwise_fst rawJobs 0)
    intro p q hpq a ha b hb hab
    rw [ingestRecord_id parseDate clock p a ha, ingestRecord_id parseDate clock q b hb] at hab
    exact hpq (jobID_index_injective _ _ _ _ hab)

/-- C17 at the sample batch, read with a clock that never moves: the two postings
returned have the ids of positions 0 and 2. -/
theorem C17_witness :
    (fun _ => some sampleBatch : List UInt8 → Option (List RawJobPosting)) [] =
      some sampleBatch ∧
    ∃ out, IngestFromJSON (fun _ => some sampleBatch) (fun _ => none) sampleClock [] = .ok out ∧
      (∀ job ∈ out.jobs, job.ID ≠ "") ∧ out.jobs.Pairwise (fun a b => a.ID ≠ b.ID) := by
  refine ⟨rfl, ?_⟩
  obtain ⟨out, h, _, hne, hdist⟩ :=
    C17_ids_nonempty_and_distinct (fun _ => some sampleBatch) (fun _ => none) sampleClock []
      sampleBatch rfl
  exact ⟨out, h, hne, hdist⟩

end ingestion

/-! ## The sign of a normalised salary, the scenarios, and the fields the verdict reads -/

namespace ingestion

open models approval

/-- C18, as stated, fails at the bare number -5 and at the object `{"value": -5}`:
normalisation succeeds and the value resolves to -5, which is negative. -/
theorem C18_counterexample :
    (∃ salary, normalizeSalary (.float (F64.ofInt (-5))) = .ok salary ∧
      ExtractSalaryValue (fun _ => none) salary.Value = F64.ofInt (-5) ∧
      F64.le (F64.ofInt 0) (ExtractSalaryValue (fun _ => none) salary.Value) = false) ∧
    (∃ salary, normalizeSalary (.obj [("value", .float (F64.ofInt (-5)))]) = .ok salary ∧
      F64.le (F64.ofInt 0) (ExtractSalaryValue (fun _ => none) salary.Value) = false) := by
  refine ⟨⟨_, rfl, rfl, ?_⟩, ⟨_, rfl, ?_⟩⟩
  · decide
  · decide

/-- C18, amended: when `normalizeSalary` succeeds, the value resolves to what the number
carried by the input resolves to (the bare number, or the entry `value` of the object);
it is non-negative for a non-negative bare integer and is 0 for an unreadable value, and
nothing makes a negative input non-negative. -/
theorem C18_salary_value_is_carried (parseFloat : String → Option F64) (data : Any)
    (salary : Salary) (h : normalizeSalary data = .ok salary) :
    ExtractSalaryValue parseFloat salary.Value =
        ExtractSalaryValue parseFloat (carriedValue data) ∧
    (∀ n : Int, data = .int n → 0 ≤ n →
      F64.le (F64.ofInt 0) (ExtractSalaryValue parseFloat salary.Value) = true) ∧
    (unreadableValue parseFloat (carriedValue data) →
      ExtractSalaryValue parseFloat salary.Value = F64.ofInt 0 ∧
        F64.le (F64.ofInt 0) (ExtractSalaryValue parseFloat salary.Value) = true) := by
  have hc := extract_normalizeSalary parseFloat data salary h
  refine ⟨hc, ?_, ?_⟩
  · intro n hd hn
    rw [hc, hd]
    exact F64.zero_le_ofInt n hn
  · intro hu
    rw [hc, extractSalaryValue_unreadable parseFloat _ hu]
    exact ⟨rfl, by decide⟩

/-- C18 at the bare integer 80000: the value resolves to a non-negative number. -/
theorem C18_witness :
    normalizeSalary (.int 80000) =
        .ok { Value := .float (F64.ofInt 80000), Currency := "USD", Unit := "" } ∧
      F64.le (F64.ofInt 0)
        (ExtractSalaryValue (fun _ => none) (Any.float (F64.ofInt 80000))) = true :=
  ⟨rfl, (C18_salary_value_is_carried (fun _ => none) (.int 80000)
    { Value := .float (F64.ofInt 80000), Currency := "USD", Unit := "" } rfl).2.1 80000 rfl
    (by decide)⟩

end ingestion

namespace approval

open models

/-- C19: the posting that is not remote, in the UK, full-time, paid 150000 GBP a year, of
an `"Agency"`, in English, is rejected with the location reason alone; the remote,
`"Full-Time"` posting paid 120000 USD, of a `"Tech"` company, in English, is approved
with no reason.  The other fields of the posting are arbitrary. -/
theorem C19_end_to_end_scenarios (parseFloat : String → Option F64) (now : Time)
    (base : JobPosting) :
    ((ApproveJob parseFloat now NewJobApprover
        { base with
          Remote := false, Location := { base.Location with Country := "UK" },
          EmploymentType := "full-time",
          Salary := { Value := .float (F64.ofInt 150000), Currency := "GBP", Unit := "" },
          CompanyType := "Agency", Language := "English" }).Approved = false ∧
      (ApproveJob parseFloat now NewJobApprover
        { base with
          Remote := false, Location := { base.Location with Country := "UK" },
          EmploymentType := "full-time",
          Salary := { Value := .float (F64.ofInt 150000), Currency := "GBP", Unit := "" },
          CompanyType := "Agency", Language := "English" }).Reasons =
        ["Invalid location: must be remote or in US/Canada"]) ∧
    ((ApproveJob parseFloat now NewJobApprover
        { base with
          Remote := true, EmploymentType := "Full-Time",
          Salary := { Value := .float (F64.ofInt 120000), Currency := "USD", Unit := "" },
          CompanyType := "Tech", Language := "English" }).Approved = true ∧
      (ApproveJob parseFloat now NewJobApprover
        { base with
          Remote := true, EmploymentType := "Full-Time",
          Salary := { Value := .float (F64.ofInt 120000), Currency := "USD", Unit := "" },
          CompanyType := "Tech", Language := "English" }).Reasons = []) := by
  constructor
  · have h := approveJob_congr parseFloat now NewJobApprover
      { base with
        Remote := false, Location := { base.Location with Country := "UK" },
        EmploymentType := "full-time",
        Salary := { Value := .float (F64.ofInt 150000), Currency := "GBP", Unit := "" },
        CompanyType := "Agency", Language := "English" } sampleJob rfl rfl rfl rfl rfl rfl
    have hf := approveJob_float parseFloat now NewJobApprover sampleJob (F64.ofInt 150000) rfl
    rw [h.1, h.2, hf.1, hf.2]
    decide
  · have hremote : ∀ job : JobPosting, job.Remote = true → isValidLocation job = true := by
      intro job hj
      unfold isValidLocation
      rw [hj]; rfl
    have hloc := hremote
      { base with
        Remote := true, EmploymentType := "Full-Time",
        Salary := { Value := .float (F64.ofInt 120000), Currency := "USD", Unit := "" },
        CompanyType := "Tech", Language := "English" } rfl
    have hemp := isFullTime_congr
      { base with
        Remote := true, EmploymentType := "Full-Time",
        Salary := { Value := .float (F64.ofInt 120000), Currency := "USD", Unit := "" },
        CompanyType := "Tech", Language := "English" }
      (remoteJob { Value := .float (F64.ofInt 120000), Currency := "USD", Unit := "" }) rfl
    have hsal := meetsSalaryRequirement_congr parseFloat NewJobApprover
      { base with
        Remote := true, EmploymentType := "Full-Time",
        Salary := { Value := .float (F64.ofInt 120000), Currency := "USD", Unit := "" },
        CompanyType := "Tech", Language := "English" }
      (remoteJob { Value := .float (F64.ofInt 120000), Currency := "USD", Unit := "" }) rfl
    have hcom := isStaffingFirm_congr
      { base with
        Remote := true, EmploymentType := "Full-Time",
        Salary := { Value := .float (F64.ofInt 120000), Currency := "USD", Unit := "" },
        CompanyType := "Tech", Language := "English" }
      (remoteJob { Value := .float (F64.ofInt 120000), Currency := "USD", Unit := "" }) rfl
    have hlan : hasValidLanguage
        { base with
          Remote := true, EmploymentType := "Full-Time",
          Salary := { Value := .float (F64.ofInt 120000), Currency := "USD", Unit := "" },
          CompanyType := "Tech", Language := "English" } = true := rfl
    have hE : isFullTime
        (remoteJob { Value := .float (F64.ofInt 120000), Currency := "USD", Unit := "" }) = true := by
      decide
    have hS : meetsSalaryRequirement (fun _ => none) NewJobApprover
        (remoteJob { Value := .float (F64.ofInt 120000), Currency := "USD", Unit := "" }) = true := by
      decide
    have hC : isStaffingFirm
        (remoteJob { Value := .float (F64.ofInt 120000), Currency := "USD", Unit := "" }) = false := by
      decide
    rw [approveJob_eq, hloc, hemp, hsal, hcom, hlan,
      meetsSalaryRequirement_float parseFloat NewJobApprover _ (F64.ofInt 120000) rfl,
      hE, hS, hC]
    exact ⟨rfl, rfl⟩

/-- C20: two postings that agree on the remote flag, the country, the employment type,
the salary, the company type and the language get the same verdict and the same reasons,
whatever their other fields; and the result carries the id of its posting. -/
theorem C20_verdict_reads_only_rule_fields (parseFloat : String → Option F64) (now : Time)
    (ja : JobApprover) (j1 j2 : JobPosting) (hr : j1.Remote = j2.Remote)
    (hc : j1.Location.Country = j2.Location.Country)
    (he : j1.EmploymentType = j2.EmploymentType) (hs : j1.Salary = j2.Salary)
    (ht : j1.CompanyType = j2.CompanyType) (hl : j1.Language = j2.Language) :
    (ApproveJob parseFloat now ja j1).Approved = (ApproveJob parseFloat now ja j2).Approved ∧
      (ApproveJob parseFloat now ja j1).Reasons = (ApproveJob parseFloat now ja j2).Reasons ∧
      (ApproveJob parseFloat now ja j1).JobID = j1.ID ∧
      (ApproveJob parseFloat now ja j2).JobID = j2.ID := by
  have h := approveJob_congr parseFloat now ja j1 j2 hr hc he hs ht hl
  refine ⟨h.1, h.2, ?_, ?_⟩
  · rw [approveJob_eq]
  · rw [approveJob_eq]

/-- C20 at the UK posting and the same posting under another id, title, company, city,
state and date: same verdict, same reasons, each result with its own id. -/
theorem C20_witness :
    (sampleJob.Remote = sampleJobElsewhere.Remote ∧
      sampleJob.Location.Country = sampleJobElsewhere.Location.Country ∧
      sampleJob.EmploymentType = sampleJobElsewhere.EmploymentType ∧
      sampleJob.Salary = sampleJobElsewhere.Salary ∧
      sampleJob.CompanyType = sampleJobElsewhere.CompanyType ∧
      sampleJob.Language = sampleJobElsewhere.Language ∧
      sampleJob.ID ≠ sampleJobElsewhere.ID) ∧
    (ApproveJob (fun _ => none) 0 NewJobApprover sampleJob).Approved =
        (ApproveJob (fun _ => none) 0 NewJobApprover sampleJobElsewhere).Approved ∧
      (ApproveJob (fun _ => none) 0 NewJobApprover sampleJob).Reasons =
        (ApproveJob (fun _ => none) 0 NewJobApprover sampleJobElsewhere).Reasons ∧
      (ApproveJob (fun _ => none) 0 NewJobApprover sampleJob).JobID = "job_1700000000_0" ∧
      (ApproveJob (fun _ => none) 0 NewJobApprover sampleJobElsewhere).JobID =
        "job_1700000500_7" :=
  ⟨⟨rfl, rfl, rfl, rfl, rfl, rfl, by decide⟩,
   C20_verdict_reads_only_rule_fields (fun _ => none) 0 NewJobApprover sampleJob
     sampleJobElsewhere rfl rfl rfl rfl rfl rfl⟩

end approval
